import Mathlib

/-!
Verification development for the razor-voice-service conversation core
(`src/brain/razor_brain/`): the conversation context (`context.py`), the
state tracker (`state.py`), the gateway client (`gateway.py`) and the
conversation engine (`engine.py`), shallowly embedded in Lean.

Modelling conventions:
* Python `time.time()` draws are passed in as explicit clock arguments
  (`Nat` for the context/state modules, `ℚ` for gateway timing, since
  the gateway does arithmetic on delays).
* `uuid.uuid4()` draws are modelled by a fresh-id counter threaded
  through the state (ids are distinct, which is the only property the
  code relies on), or by an explicitly supplied fresh identifier.
* Python dicts keyed by strings are association lists in key-insertion
  order, matching CPython's ordered-dict iteration semantics.
* JSON values are the inductive `JValue`; numeric JSON leaves are `ℚ`.
* Fallible Python code paths (uncaught exceptions) are `Except` values.
-/

namespace Razor

/-- JSON-like values, the payload currency of the gateway protocol. -/
inductive JValue where
  | null : JValue
  | bool (b : Bool) : JValue
  | num (q : ℚ) : JValue
  | str (s : String) : JValue
  | arr (xs : List JValue) : JValue
  | obj (fields : List (String × JValue)) : JValue
deriving Repr

mutual

/-- Structural decidable equality for `JValue`. -/
def JValue.beq : JValue → JValue → Bool
  | .null, .null => true
  | .bool a, .bool b => a == b
  | .num a, .num b => a == b
  | .str a, .str b => a == b
  | .arr a, .arr b => JValue.beqList a b
  | .obj a, .obj b => JValue.beqFields a b
  | _, _ => false

def JValue.beqList : List JValue → List JValue → Bool
  | [], [] => true
  | x :: xs, y :: ys => JValue.beq x y && JValue.beqList xs ys
  | _, _ => false

def JValue.beqFields : List (String × JValue) → List (String × JValue) → Bool
  | [], [] => true
  | (k, v) :: xs, (k2, v2) :: ys => k == k2 && JValue.beq v v2 && JValue.beqFields xs ys
  | _, _ => false

end

mutual

theorem JValue.beq_refl : ∀ v : JValue, JValue.beq v v = true
  | .null => rfl
  | .bool b => by simp [JValue.beq]
  | .num q => by simp [JValue.beq]
  | .str s => by simp [JValue.beq]
  | .arr xs => by simp [JValue.beq, JValue.beqList_refl xs]
  | .obj fs => by simp [JValue.beq, JValue.beqFields_refl fs]

theorem JValue.beqList_refl : ∀ xs : List JValue, JValue.beqList xs xs = true
  | [] => rfl
  | x :: xs => by simp [JValue.beqList, JValue.beq_refl x, JValue.beqList_refl xs]

theorem JValue.beqFields_refl : ∀ xs : List (String × JValue), JValue.beqFields xs xs = true
  | [] => rfl
  | (k, v) :: xs => by
      simp [JValue.beqFields, JValue.beq_refl v, JValue.beqFields_refl xs]

end

mutual

theorem JValue.eq_of_beq : ∀ {a b : JValue}, JValue.beq a b = true → a = b
  | .null, .null, _ => rfl
  | .bool _, .bool _, h => by simpa [JValue.beq] using congrArg JValue.bool (by
      simpa [JValue.beq] using h)
  | .num _, .num _, h => by
      have : _ = _ := of_decide_eq_true (by simpa [JValue.beq, BEq.beq] using h)
      exact congrArg JValue.num this
  | .str _, .str _, h => by
      have : _ = _ := of_decide_eq_true (by simpa [JValue.beq, BEq.beq] using h)
      exact congrArg JValue.str this
  | .arr xs, .arr ys, h => by
      have := JValue.eqList_of_beq (a := xs) (b := ys) (by simpa [JValue.beq] using h)
      exact congrArg JValue.arr this
  | .obj xs, .obj ys, h => by
      have := JValue.eqFields_of_beq (a := xs) (b := ys) (by simpa [JValue.beq] using h)
      exact congrArg JValue.obj this

theorem JValue.eqList_of_beq : ∀ {a b : List JValue}, JValue.beqList a b = true → a = b
  | [], [], _ => rfl
  | x :: xs, y :: ys, h => by
      have h1 : JValue.beq x y = true := by
        have := h; simp [JValue.beqList, Bool.and_eq_true] at this; exact this.1
      have h2 : JValue.beqList xs ys = true := by
        have := h; simp [JValue.beqList, Bool.and_eq_true] at this; exact this.2
      rw [JValue.eq_of_beq h1, JValue.eqList_of_beq h2]

theorem JValue.eqFields_of_beq :
    ∀ {a b : List (String × JValue)}, JValue.beqFields a b = true → a = b
  | [], [], _ => rfl
  | (k, v) :: xs, (k2, v2) :: ys, h => by
      have h0 : (k == k2 && JValue.beq v v2) = true ∧ JValue.beqFields xs ys = true := by
        simpa [JValue.beqFields, Bool.and_eq_true] using h
      have hk : k = k2 := by
        have := h0.1; simp [Bool.and_eq_true] at this; exact this.1
      have hv : v = v2 := by
        have := h0.1; simp [Bool.and_eq_true] at this; exact JValue.eq_of_beq this.2
      rw [hk, hv, JValue.eqFields_of_beq h0.2]

end

instance : DecidableEq JValue := fun a b =>
  if h : JValue.beq a b = true then
    isTrue (JValue.eq_of_beq h)
  else
    isFalse (fun he => h (he ▸ JValue.beq_refl a))

/-- `d.get(key)` on a string-keyed Python dict (first binding wins;
keys are unique in dicts, so "first" is "the" binding). -/
def jget (fields : List (String × JValue)) (key : String) : Option JValue :=
  match fields with
  | [] => none
  | (k, v) :: rest => if k = key then some v else jget rest key

/-- Python truthiness of a JSON value (`if x:`). -/
def JValue.truthy : JValue → Bool
  | .null => false
  | .bool b => b
  | .num q => decide (q ≠ 0)
  | .str s => decide (s ≠ "")
  | .arr xs => decide (xs ≠ [])
  | .obj fs => decide (fs ≠ [])

/-- `d[k] = v` on a Python dict: overwrite in place if the key exists,
else append the new binding. -/
def dictSet (m : List (String × JValue)) (k : String) (v : JValue) :
    List (String × JValue) :=
  match m with
  | [] => [(k, v)]
  | (k2, v2) :: rest => if k2 = k then (k, v) :: rest else (k2, v2) :: dictSet rest k v

/-- `old.update(new)` on Python dicts: set each binding of `new` in turn. -/
def dictUpdate (old : List (String × JValue)) : List (String × JValue) → List (String × JValue)
  | [] => old
  | (k, v) :: rest => dictUpdate (dictSet old k v) rest

/-- ASCII fragment of Python `str.lower()` (`context.py` lowers names
and aliases before comparing). -/
def pyLower (s : String) : String := ⟨s.data.map Char.toLower⟩

/-- Python whitespace test used by `str.strip()` (ASCII fragment). -/
def isPySpace (c : Char) : Bool :=
  c = ' ' || c = '\t' || c = '\n' || c = '\x0d' || c = '\x0b' || c = '\x0c'

/-- Python `str.strip()`: drop leading and trailing whitespace. -/
def pyStrip (s : String) : String :=
  ⟨((s.data.dropWhile isPySpace).reverse.dropWhile isPySpace).reverse⟩

/-- The needle `find_entity` searches for: `name_or_alias.lower().strip()`. -/
def needleOf (s : String) : String := pyStrip (pyLower s)

-- ━━━ context.py ━━━━━━━━━━━━━━━━━━━━━━━━━━━━━━━━━━━━━━━━━━━━━━━━━━━━━

/-- Speaker role of a turn (`context.Role`). -/
inductive Role where
  | user : Role
  | brain : Role
  | system_ : Role
deriving DecidableEq, Repr

/-- `context.Entity`: one tracked conversational entity. -/
structure Entity where
  id : Nat
  canonical_name : String
  entity_type : String
  aliases : List String
  metadata : List (String × JValue)
  last_referenced_at : Nat
  reference_count : Nat
deriving DecidableEq, Repr

/-- `Entity.touch()`: bump the reference count and refresh the timestamp. -/
def Entity.touch (e : Entity) (now : Nat) : Entity :=
  { e with last_referenced_at := now, reference_count := e.reference_count + 1 }

/-- `context.Turn`: one conversational exchange. -/
structure Turn where
  id : Nat
  role : Role
  content : String
  timestamp : Nat
  entities_mentioned : List String
  intent : Option String
  metadata : List (String × JValue)
deriving DecidableEq, Repr

/-- Alias merging in `track_entity`: append each new alias whose lowered
form is not already present among the (growing) alias list. -/
def mergeAliases (existing : List String) : List String → List String
  | [] => existing
  | a :: rest =>
      if (existing.map pyLower).contains (pyLower a) then mergeAliases existing rest
      else mergeAliases (existing ++ [a]) rest

/-- The eviction sort key order: ascending `(reference_count,
last_referenced_at)` lexicographically (Python tuple `<` under `sorted`). -/
def entLe (a b : Entity) : Bool :=
  decide (a.reference_count < b.reference_count ∨
    (a.reference_count = b.reference_count ∧ a.last_referenced_at ≤ b.last_referenced_at))

/-- In-place mutation of the first list element satisfying `p`
(models Python mutating the object returned by `find_entity`). -/
def updateFirst (p : α → Bool) (f : α → α) : List α → List α
  | [] => []
  | x :: xs => if p x then f x :: xs else x :: updateFirst p f xs

/-- `context.ConversationContext` state. The Python `_entities` dict is
kept as a list of entities in insertion order (dict-value iteration
order); `next_id` models the stream of fresh `uuid4` draws. -/
structure ConversationContext where
  session_id : String
  window_size : Nat
  max_entities : Nat
  turns : List Turn
  entities : List Entity
  session_summary : String
  created_at : Nat
  topic_stack : List String
  next_id : Nat
deriving DecidableEq, Repr

namespace ConversationContext

/-- `ConversationContext.__init__`. -/
def init (session_id : String) (window_size : Nat := 20) (max_entities : Nat := 200)
    (now : Nat := 0) : ConversationContext :=
  { session_id := session_id
    window_size := window_size
    max_entities := max_entities
    turns := []
    entities := []
    session_summary := ""
    created_at := now
    topic_stack := []
    next_id := 0 }

/-- `add_user_turn`: append a user turn; returns the turn and the new state. -/
def add_user_turn (c : ConversationContext) (content : String)
    (metadata : List (String × JValue)) (now : Nat) : Turn × ConversationContext :=
  let turn : Turn :=
    { id := c.next_id, role := .user, content := content, timestamp := now
      entities_mentioned := [], intent := none, metadata := metadata }
  (turn, { c with turns := c.turns ++ [turn], next_id := c.next_id + 1 })

/-- `add_brain_turn`. -/
def add_brain_turn (c : ConversationContext) (content : String) (intent : Option String)
    (entities : List String) (metadata : List (String × JValue)) (now : Nat) :
    Turn × ConversationContext :=
  let turn : Turn :=
    { id := c.next_id, role := .brain, content := content, timestamp := now
      entities_mentioned := entities, intent := intent, metadata := metadata }
  (turn, { c with turns := c.turns ++ [turn], next_id := c.next_id + 1 })

/-- Does `e` match the (already lowered and stripped) needle by canonical
name or any alias? (`find_entity` loop body.) -/
def entityMatches (needle : String) (e : Entity) : Bool :=
  pyLower e.canonical_name == needle || e.aliases.any (fun a => pyLower a == needle)

/-- `find_entity`: first entity (in insertion order) whose lowered
canonical name or alias equals the lowered, stripped argument. -/
def find_entity (c : ConversationContext) (name_or_alias : String) : Option Entity :=
  c.entities.find? (entityMatches (needleOf name_or_alias))

/-- `_evict_stale_entities`: delete the `len - max_entities` entities
with the smallest `(reference_count, last_referenced_at)` keys. -/
def evict_stale_entities (c : ConversationContext) : ConversationContext :=
  let sortedE := c.entities.mergeSort entLe
  let toRemove := (sortedE.take (c.entities.length - c.max_entities)).map Entity.id
  { c with entities := c.entities.filter (fun e => !(toRemove.contains e.id)) }

/-- `track_entity`: register a new entity or touch/merge an existing one,
then evict if the registry exceeds its capacity. -/
def track_entity (c : ConversationContext) (canonical_name : String)
    (entity_type : String) (aliases : List String)
    (metadata : List (String × JValue)) (now : Nat) : ConversationContext :=
  let needle := needleOf canonical_name
  match c.entities.find? (entityMatches needle) with
  | some _ =>
      { c with
        entities :=
          updateFirst (entityMatches needle)
            (fun e =>
              let e2 := e.touch now
              { e2 with
                aliases := mergeAliases e2.aliases aliases
                metadata := dictUpdate e2.metadata metadata })
            c.entities }
  | none =>
      let ent : Entity :=
        { id := c.next_id, canonical_name := canonical_name, entity_type := entity_type
          aliases := aliases, metadata := metadata
          last_referenced_at := now, reference_count := 1 }
      let c2 := { c with entities := c.entities ++ [ent], next_id := c.next_id + 1 }
      if c2.max_entities < c2.entities.length then c2.evict_stale_entities else c2

/-- `get_recent_entities`: entities sorted by `last_referenced_at`
descending (`sorted(..., reverse=True)` keeps insertion order among
equal keys, which a stable merge sort with the flipped key mirrors),
truncated to `limit`. -/
def get_recent_entities (c : ConversationContext) (limit : Nat) : List Entity :=
  (c.entities.mergeSort (fun a b => decide (b.last_referenced_at ≤ a.last_referenced_at))).take
    limit

/-- `push_topic`: push unless equal to the current top; cap depth at 20. -/
def push_topic (c : ConversationContext) (topic : String) : ConversationContext :=
  if c.topic_stack = [] ∨ c.topic_stack.getLast? ≠ some topic then
    let stack := c.topic_stack ++ [topic]
    { c with topic_stack := if 20 < stack.length then stack.drop (stack.length - 20) else stack }
  else c

/-- `current_topic`. -/
def current_topic (c : ConversationContext) : Option String :=
  c.topic_stack.getLast?

/-- `update_session_summary`. -/
def update_session_summary (c : ConversationContext) (summary : String) :
    ConversationContext :=
  { c with session_summary := summary }

end ConversationContext

/-- Python list slice `l[-k:]`: the last `k` elements for `k ≥ 1, but the
WHOLE list when `k = 0` (since `-0 == 0`). -/
def pySliceLast (l : List α) (k : Nat) : List α :=
  if k = 0 then l else l.drop (l.length - k)

/-- One turn as rendered into the outbound `turns` payload list. -/
structure PayloadTurn where
  role : String
  content : String
  timestamp : Nat
  intent : Option String
  entities : List String
deriving DecidableEq, Repr

/-- `Role.value`. -/
def Role.value : Role → String
  | .user => "user"
  | .brain => "brain"
  | .system_ => "system"

/-- Rendering of a turn into the payload dict. -/
def Turn.toPayload (t : Turn) : PayloadTurn :=
  { role := t.role.value, content := t.content, timestamp := t.timestamp
    intent := t.intent, entities := t.entities_mentioned }

/-- One tracked entity as rendered into the outbound payload. -/
structure PayloadEntity where
  id : Nat
  name : String
  type_ : String
  aliases : List String
  metadata : List (String × JValue)
  ref_count : Nat
deriving DecidableEq, Repr

/-- Rendering of an entity into the payload dict. -/
def Entity.toPayload (e : Entity) : PayloadEntity :=
  { id := e.id, name := e.canonical_name, type_ := e.entity_type
    aliases := e.aliases, metadata := e.metadata, ref_count := e.reference_count }

/-- The structure returned by `get_brain_context`. -/
structure BrainContextPayload where
  session_id : String
  session_summary : String
  current_topic : Option String
  topic_history : List String
  turns : List PayloadTurn
  tracked_entities : List PayloadEntity
  turn_count : Nat
  session_age_seconds : Int
deriving DecidableEq, Repr

namespace ConversationContext

/-- `get_brain_context`: the full outbound context payload.  The turns
field is the Python slice `self._turns[-self.window_size:]`. -/
def get_brain_context (c : ConversationContext) (now : Nat) : BrainContextPayload :=
  { session_id := c.session_id
    session_summary := c.session_summary
    current_topic := c.current_topic
    topic_history := pySliceLast c.topic_stack 5
    turns := (pySliceLast c.turns c.window_size).map Turn.toPayload
    tracked_entities := (c.get_recent_entities 15).map Entity.toPayload
    turn_count := c.turns.length
    session_age_seconds := (now : Int) - (c.created_at : Int) }

end ConversationContext

/-- Arguments of one `track_entity` call (with its `time.time()` draw). -/
structure TrackCall where
  name : String
  etype : String
  aliases : List String
  metadata : List (String × JValue)
  now : Nat
deriving DecidableEq, Repr

/-- One `track_entity` call as a state step. -/
def trackStep (c : ConversationContext) (t : TrackCall) : ConversationContext :=
  c.track_entity t.name t.etype t.aliases t.metadata t.now

/-- Every call in the list uses, as its lookup key, either the canonical
name (any casing / surrounding whitespace, i.e. its lowered stripped form
equals the canonical lowered name) or an alias registered by an earlier
call of the sequence (`pool` accumulates the aliases supplied so far). -/
def keysOk (canonLower : String) (pool : List String) : List TrackCall → Bool
  | [] => true
  | t :: rest =>
      (needleOf t.name == canonLower ||
        (pool.map pyLower).contains (needleOf t.name)) &&
      keysOk canonLower (pool ++ t.aliases) rest

-- ━━━ state.py ━━━━━━━━━━━━━━━━━━━━━━━━━━━━━━━━━━━━━━━━━━━━━━━━━━━━━━━

/-- `state.ConversationState`: the brain-reported conversation states. -/
inductive ConversationState where
  | idle : ConversationState
  | greeting : ConversationState
  | querying : ConversationState
  | debriefing : ConversationState
  | action_requested : ConversationState
  | clarifying : ConversationState
  | confirming : ConversationState
  | following_up : ConversationState
  | multi_turn_task : ConversationState
  | error_recovery : ConversationState
  | farewell : ConversationState
deriving DecidableEq, Repr

/-- `ConversationState(raw)` on a string: the enum member with that
value, or failure (`ValueError`, caught by the engine). -/
def ConversationState.fromString? (s : String) : Option ConversationState :=
  if s = "idle" then some .idle
  else if s = "greeting" then some .greeting
  else if s = "querying" then some .querying
  else if s = "debriefing" then some .debriefing
  else if s = "action_requested" then some .action_requested
  else if s = "clarifying" then some .clarifying
  else if s = "confirming" then some .confirming
  else if s = "following_up" then some .following_up
  else if s = "multi_turn_task" then some .multi_turn_task
  else if s = "error_recovery" then some .error_recovery
  else if s = "farewell" then some .farewell
  else none

/-- `state.StateSnapshot`. -/
structure StateSnapshot where
  state : ConversationState
  entered_at : Nat
  exited_at : Option Nat
  trigger_turn_id : Option Nat
  metadata : List (String × JValue)
deriving DecidableEq, Repr

/-- `state.StateTracker`.  In Python `_history[-1]` is the same object
as `_current` (the transition appends the snapshot it sets as current),
so mutating `_current.exited_at` also updates the last history entry;
the model keeps that invariant by rewriting the last history entry on
transition. -/
structure StateTracker where
  current : StateSnapshot
  history : List StateSnapshot
deriving DecidableEq, Repr

/-- `StateTracker.__init__`: starts in `idle` with a single snapshot. -/
def StateTracker.init (now : Nat) : StateTracker :=
  { current := { state := .idle, entered_at := now, exited_at := none
                 trigger_turn_id := none, metadata := [] }
    history := [{ state := .idle, entered_at := now, exited_at := none
                  trigger_turn_id := none, metadata := [] }] }

/-- `StateTracker.transition`: close the current snapshot, open and
append the new one, trim history to the last 500 (`_history[-500:]`).
Listener notification has no effect on the tracker state (listener
exceptions are swallowed). -/
def StateTracker.transition (st : StateTracker) (new_state : ConversationState)
    (trigger_turn_id : Option Nat) (metadata : List (String × JValue)) (now : Nat) :
    StateTracker :=
  let closed := { st.current with exited_at := some now }
  let snap : StateSnapshot :=
    { state := new_state, entered_at := now, exited_at := none
      trigger_turn_id := trigger_turn_id, metadata := metadata }
  let hist := (st.history.dropLast ++ [closed]) ++ [snap]
  let hist2 := if 500 < hist.length then hist.drop (hist.length - 500) else hist
  { current := snap, history := hist2 }

-- ━━━ engine.py ━━━━━━━━━━━━━━━━━━━━━━━━━━━━━━━━━━━━━━━━━━━━━━━━━━━━━━

/-- `engine.BrainResponse`.  Field types follow the dataclass
annotations (`text: str`, `intent: Optional[str]`, `confidence: float`
as `ℚ`, ...); the gateway protocol supplies values of these declared
types. -/
structure BrainResponse where
  text : String
  intent : Option String := none
  state : Option ConversationState := none
  entities : List JValue := []
  suggested_actions : List JValue := []
  follow_up : Option String := none
  confidence : ℚ := 1
  needs_clarification : Bool := false
  context_summary_update : Option String := none
  raw : List (String × JValue) := []
  latency_ms : ℚ := 0
deriving DecidableEq, Repr

/-- `BrainResponse.error`: the synthetic error response. -/
def BrainResponse.error (message : String) : BrainResponse :=
  { text := message, intent := some "error", state := some .error_recovery
    confidence := 0 }

/-- `content.get(key, dflt)` expecting a string per the declared data
model (a present non-string value is outside the dataclass annotations
and is modelled by the default). -/
def getStrField (fields : List (String × JValue)) (key : String) (dflt : String) : String :=
  match jget fields key with
  | some (.str s) => s
  | _ => dflt

/-- `content.get(key)` expecting an optional string. -/
def getOptStrField (fields : List (String × JValue)) (key : String) : Option String :=
  match jget fields key with
  | some (.str s) => some s
  | _ => none

/-- `content.get(key, dflt)` expecting a number. -/
def getNumField (fields : List (String × JValue)) (key : String) (dflt : ℚ) : ℚ :=
  match jget fields key with
  | some (.num q) => q
  | _ => dflt

/-- `content.get(key, dflt)` expecting a boolean. -/
def getBoolField (fields : List (String × JValue)) (key : String) (dflt : Bool) : Bool :=
  match jget fields key with
  | some (.bool b) => b
  | _ => dflt

/-- `content.get(key, [])` expecting a list. -/
def getArrField (fields : List (String × JValue)) (key : String) : List JValue :=
  match jget fields key with
  | some (.arr xs) => xs
  | _ => []

/-- The `inferred_state` handling in `from_gateway_response`: falsy
values are skipped; a truthy string is looked up in the enum with
`ValueError` caught (unknown state becomes `none`); a truthy hashable
non-string also raises `ValueError` (caught); an unhashable value
(list/dict) raises `TypeError`, which the `except ValueError` handler
does not catch, so it escapes. -/
def parseInferredState (fields : List (String × JValue)) :
    Except Unit (Option ConversationState) :=
  match jget fields "inferred_state" with
  | none => .ok none
  | some v =>
      if v.truthy then
        match v with
        | .str s => .ok (ConversationState.fromString? s)
        | .arr _ => .error ()
        | .obj _ => .error ()
        | _ => .ok none
      else .ok none

/-- Parsing of structured (non-plain-text) response content.  Content
that is not a dict makes `content.get` raise `AttributeError`
(uncaught here), modelled as `.error`. -/
def BrainResponse.parseContent (content : JValue) (data : List (String × JValue))
    (latency_ms : ℚ) : Except Unit BrainResponse :=
  match content with
  | .obj fields =>
      match parseInferredState fields with
      | .error e => .error e
      | .ok st =>
          .ok { text := getStrField fields "response_text" ""
                intent := getOptStrField fields "inferred_intent"
                state := st
                entities := getArrField fields "entities_detected"
                suggested_actions := getArrField fields "suggested_actions"
                follow_up := getOptStrField fields "follow_up_prompt"
                confidence := getNumField fields "confidence" 1
                needs_clarification := getBoolField fields "needs_clarification" false
                context_summary_update := getOptStrField fields "context_summary_update"
                raw := data
                latency_ms := latency_ms }
  | _ => .error ()

/-- `BrainResponse.from_gateway_response`.  The behaviour of the
standard-library JSON decoder (`json.loads`) is a parameter `loads`:
`none` models `json.JSONDecodeError`. -/
def BrainResponse.from_gateway_response (loads : String → Option JValue)
    (data : List (String × JValue)) (latency_ms : ℚ) : Except Unit BrainResponse :=
  match (jget data "content").getD (.obj data) with
  | .str s =>
      match loads s with
      | none => .ok { text := s, raw := data, latency_ms := latency_ms }
      | some c => BrainResponse.parseContent c data latency_ms
  | c => BrainResponse.parseContent c data latency_ms

/-- `engine.EngineConfig`; callbacks are modelled by presence flags
plus, for `on_error`, a behaviour flag.  `process` wraps its
`on_response` and `on_action` invocations in `try/except Exception`
(their exceptions are logged and swallowed, so whether they raise is
unobservable here), but all three `except` handlers invoke
`self.config.on_error(...)` with no such guard, so whether the
configured error callback raises when invoked (`on_error_raises`) is
observable: its exception propagates out of `process`. -/
structure EngineConfig where
  context_window_size : Nat := 20
  max_entities : Nat := 200
  auto_compress_at : Nat := 30
  response_timeout : ℚ := 60
  system_prompt_override : Option String := none
  has_on_response : Bool := false
  has_on_action : Bool := false
  has_on_error : Bool := false
  on_error_raises : Bool := false
deriving DecidableEq, Repr

/-- `engine.ConversationEngine` state relevant to the pipeline. -/
structure Engine where
  config : EngineConfig
  context : ConversationContext
  state : StateTracker
deriving DecidableEq, Repr

/-- The error the gateway `send` (or response handling) surfaced to
`process`, selecting one of its three `except` handlers. -/
inductive SendFailure where
  | timeoutError : SendFailure
  | connectionError (msg : String) : SendFailure
  | runtimeError (msg : String) : SendFailure
deriving DecidableEq, Repr

/-- Callback invocations `process` performs (the callbacks themselves
are external; `on_response`/`on_action` exceptions are swallowed by
their `try/except` wrappers, while an `on_error` exception propagates —
see `Engine.errorReturn`). -/
inductive EngineEvent where
  | on_response (r : BrainResponse) : EngineEvent
  | on_action (a : JValue) : EngineEvent
  | on_error (e : SendFailure) : EngineEvent
deriving DecidableEq, Repr

/-- `ConversationContext.turn_count`. -/
def ConversationContext.turn_count (c : ConversationContext) : Nat := c.turns.length

/-- Apology of the `except TimeoutError` handler in `process`. -/
def timeoutApology : String :=
  "I\x27m having trouble connecting to my brain right now. Could you repeat that in a moment?"

/-- Apology of the `except ConnectionError` handler in `process`. -/
def connectionApology : String :=
  "I\x27ve lost my connection. Give me a second to reconnect."

/-- Apology of the generic `except Exception` handler in `process`. -/
def genericApology : String :=
  "Something went wrong on my end. Let me try again."

/-- Which apology each failure kind produces. -/
def apologyFor : SendFailure → String
  | .timeoutError => timeoutApology
  | .connectionError _ => connectionApology
  | .runtimeError _ => genericApology

/-- `_maybe_compress_context`, with the outcome of the best-effort
side-channel summarization request injected as `summary` (`none` both
when the request failed — its exception is swallowed — and when the
returned content was empty or missing). -/
def maybeCompress (cfg : EngineConfig) (c : ConversationContext)
    (summary : Option String) : ConversationContext :=
  if c.turn_count < cfg.auto_compress_at then c
  else if c.turn_count % 10 ≠ 0 then c
  else
    match summary with
    | some s => if s ≠ "" then c.update_session_summary s else c
    | none => c

/-- The `[e.get("name", "") for e in response.entities]` comprehension:
fails (`AttributeError`, reaching the generic handler) when a detected
entity is not a dict.  A present non-string name is outside the
declared `list[str]` turn field and is modelled by the default. -/
def entityNames : List JValue → Except Unit (List String)
  | [] => .ok []
  | .obj fs :: rest =>
      match entityNames rest with
      | .error e => .error e
      | .ok r => .ok (getStrField fs "name" "" :: r)
  | _ :: _ => .error ()

/-- Aliases field of a detected entity: the declared type is
`list[str]`; a non-list is absent/default, and a list with a
non-string member would make the registry fault on the next lookup
(`a.lower()` on a non-string), modelled as an immediate fault. -/
def entityAliases (fs : List (String × JValue)) : Except Unit (List String) :=
  match jget fs "aliases" with
  | some (.arr xs) =>
      let rec collect : List JValue → Except Unit (List String)
        | [] => .ok []
        | .str s :: rest =>
            match collect rest with
            | .error e => .error e
            | .ok r => .ok (s :: r)
        | _ :: _ => .error ()
      collect xs
  | _ => .ok []

/-- `_process_entities`: register each detected entity.  A failure
carries the partially-updated context (Python mutates in place before
raising). -/
def processEntities (c : ConversationContext) (now : Nat) :
    List JValue → Except ConversationContext ConversationContext
  | [] => .ok c
  | .obj fs :: rest =>
      (match jget fs "name" with
      | none => processEntities c now rest
      | some nv =>
          if nv.truthy then
            match nv with
            | .str s =>
                match entityAliases fs with
                | .error _ => .error c
                | .ok aliases =>
                    let etype := getStrField fs "type" "other"
                    let md := fs.filter (fun kv =>
                      !(kv.1 = "name" || kv.1 = "type" || kv.1 = "aliases"))
                    processEntities (c.track_entity s etype aliases md now) now rest
            | _ => .error c
          else processEntities c now rest)
  | _ :: _ => .error c

/-- `prompts.BRAIN_SYSTEM_PROMPT` (its text content is out of scope;
only its identity as the default system prompt matters here). -/
def BRAIN_SYSTEM_PROMPT : String := "BRAIN_SYSTEM_PROMPT"

/-- `prompts.build_brain_payload` result. -/
structure BrainPayload where
  system_prompt : String
  user_message : String
  context : BrainContextPayload
deriving DecidableEq, Repr

/-- `prompts.build_brain_payload` (without the optional user profile,
which the engine does not pass). -/
def build_brain_payload (user_message : String) (context : BrainContextPayload)
    (system_prompt_override : Option String) : BrainPayload :=
  { system_prompt :=
      match system_prompt_override with
      | some s => if s ≠ "" then s else BRAIN_SYSTEM_PROMPT
      | none => BRAIN_SYSTEM_PROMPT
    user_message := user_message
    context := context }

/-- The three `except` handlers of `process`: build the synthetic error
response, record the apology brain turn, transition to error recovery,
and invoke the error callback if configured.  The `on_error` call is
NOT wrapped in `try/except` in the source (unlike `on_response` and
`on_action`), so when the configured callback raises, the handler —
and hence `process` — raises to the caller (`.error ()` in the result
slot); the mutations performed before the call (the apology turn, the
error-recovery transition, held by `self`) survive, which is why the
updated engine and the performed invocation are returned in every
case. -/
def Engine.errorReturn (eng : Engine) (c : ConversationContext) (e : SendFailure)
    (now : Nat) : Except Unit BrainResponse × Engine × List EngineEvent :=
  let resp := BrainResponse.error (apologyFor e)
  let c2 := (c.add_brain_turn resp.text (some "error") [] [] now).2
  let st2 := eng.state.transition .error_recovery none [] now
  if eng.config.has_on_error then
    (if eng.config.on_error_raises then .error () else .ok resp,
     { eng with context := c2, state := st2 }, [.on_error e])
  else (.ok resp, { eng with context := c2, state := st2 }, [])

/-- `ConversationEngine.process`: the full per-utterance pipeline.
External effects are parameters: `compressSummary` is the outcome of
the optional side-channel compression request, `sendResult` the outcome
of the gateway send awaited in step 4 (`.error` selecting the matching
`except` handler), `loads` the JSON decoder.  Pipeline exceptions are
caught by the three `except` handlers, but the handlers invoke the
configured error callback unguarded, so a raising callback escapes
`process`: the result slot is `Except Unit BrainResponse`, with
`.error ()` standing for the callback exception propagating to the
caller (the mutated engine state is still that of `self`). -/
def Engine.process (eng : Engine) (user_input : String)
    (metadata : List (String × JValue)) (now : Nat) (latency_ms : ℚ)
    (compressSummary : Option String)
    (sendResult : Except SendFailure (List (String × JValue)))
    (loads : String → Option JValue) :
    Except Unit BrainResponse × Engine × List EngineEvent :=
  -- step 1: record the user turn
  let userTurnCtx := eng.context.add_user_turn user_input metadata now
  let user_turn := userTurnCtx.1
  let c1 := userTurnCtx.2
  -- step 2: maybe compress context
  let c2 :=
    if eng.config.auto_compress_at < c1.turn_count then
      maybeCompress eng.config c1 compressSummary
    else c1
  -- step 3: build the payload (consumed by the send, whose outcome is a parameter)
  let _payload := build_brain_payload user_input (c2.get_brain_context now)
    eng.config.system_prompt_override
  -- step 4: send
  match sendResult with
  | .error e => eng.errorReturn c2 e now
  | .ok raw =>
      -- step 5: parse (an uncaught parse exception reaches the generic handler)
      match BrainResponse.from_gateway_response loads raw latency_ms with
      | .error _ => eng.errorReturn c2 (.runtimeError "response parsing failed") now
      | .ok resp =>
          -- step 6: record the brain turn (the entity-name comprehension
          -- is evaluated before the turn is appended)
          match entityNames resp.entities with
          | .error _ => eng.errorReturn c2 (.runtimeError "entity names failed") now
          | .ok names =>
              let c3 := (c2.add_brain_turn resp.text resp.intent names
                [("confidence", .num resp.confidence), ("latency_ms", .num resp.latency_ms),
                  ("actions", .arr resp.suggested_actions)] now).2
              -- step 7: track detected entities
              match processEntities c3 now resp.entities with
              | .error cPartial =>
                  eng.errorReturn cPartial (.runtimeError "entity tracking failed") now
              | .ok c4 =>
                  -- step 8: state transition
                  let st2 :=
                    match resp.state with
                    | some s => eng.state.transition s (some user_turn.id)
                        [("intent", match resp.intent with
                          | some i => JValue.str i
                          | none => JValue.null)] now
                    | none => eng.state
                  -- step 9: summary update
                  let c5 :=
                    match resp.context_summary_update with
                    | some s => if s ≠ "" then c4.update_session_summary s else c4
                    | none => c4
                  -- step 10: topic push
                  let c6 :=
                    match resp.intent with
                    | some i => if i ≠ "" then c5.push_topic i else c5
                    | none => c5
                  -- step 11: callbacks
                  let evs :=
                    (if eng.config.has_on_response then [EngineEvent.on_response resp]
                     else []) ++
                    (if resp.suggested_actions ≠ [] ∧ eng.config.has_on_action then
                      resp.suggested_actions.map EngineEvent.on_action
                     else [])
                  (.ok resp, { eng with context := c6, state := st2 }, evs)

/-- `ConversationEngine.new_session`: replace the context (fresh session
id, empty turns/entities/topics/summary, same configured sizes) and the
state tracker; despite the docstring "preserving entity knowledge", the
entity registry of the replacement context is empty. -/
def Engine.new_session (eng : Engine) (freshSid : String) (now : Nat) : String × Engine :=
  let c := ConversationContext.init freshSid eng.config.context_window_size
    eng.config.max_entities now
  (c.session_id, { eng with context := c, state := StateTracker.init now })

/-- A fresh engine whose configured error callback raises when
invoked. -/
def engRaise : Engine :=
  { config := { has_on_error := true, on_error_raises := true }
    context := ConversationContext.init "s" 20 200 0
    state := StateTracker.init 0 }

/-- A fresh engine whose configured error callback returns normally. -/
def engNoRaise : Engine :=
  { config := { has_on_error := true }
    context := ConversationContext.init "s" 20 200 0
    state := StateTracker.init 0 }

-- ━━━ gateway.py ━━━━━━━━━━━━━━━━━━━━━━━━━━━━━━━━━━━━━━━━━━━━━━━━━━━━━

/-- `gateway.GatewayStatus`. -/
inductive GatewayStatus where
  | disconnected : GatewayStatus
  | connecting : GatewayStatus
  | connected : GatewayStatus
  | reconnecting : GatewayStatus
  | fatal : GatewayStatus
deriving DecidableEq, Repr

/-- `gateway.GatewayConfig` (transport-level fields such as the uri and
ping intervals are configuration of the external transport and carry no
logic here). -/
structure GatewayConfig where
  reconnect_delay_base : ℚ := 1
  reconnect_delay_max : ℚ := 30
  reconnect_max_attempts : Nat := 50
  response_timeout : ℚ := 60
deriving DecidableEq, Repr

/-- The errors a settled future can carry. -/
inductive GatewayError where
  | connectionError (msg : String) : GatewayError
  | runtimeError (err : JValue) : GatewayError
deriving DecidableEq, Repr

/-- The state of one request's asyncio future: unsettled, resolved with
the terminal message, failed with an exception, or cancelled (which is
what `asyncio.wait_for` does to it on timeout). -/
inductive FutureState where
  | pending : FutureState
  | ok (result : List (String × JValue)) : FutureState
  | failed (err : GatewayError) : FutureState
  | cancelled : FutureState
deriving DecidableEq, Repr

/-- `gateway.PendingRequest` (the future itself is tracked in the
separate `futures` table, since it outlives the dict entry). -/
structure PendingRequest where
  request_id : String
  sent_at : ℚ
  timeout : ℚ
deriving DecidableEq, Repr

/-- `gateway.OpenClawGateway` state.  `pending` is the `_pending` dict
(in insertion order), `stream_callbacks` the keys of the sink registry,
`futures` the per-request settle-once slots, `chunkLog` the list of
sink invocations performed (`(request_id, chunk)` in delivery order);
`next_uuid` models the stream of fresh `uuid4` request ids.  Health
counters (messages sent/received, latency totals) do not influence
routing and are omitted. -/
structure GwState where
  status : GatewayStatus
  pending : List PendingRequest
  stream_callbacks : List String
  futures : List (String × FutureState)
  chunkLog : List (String × JValue)
  reconnect_attempt : Nat
  next_uuid : Nat
deriving DecidableEq, Repr

/-- Lookup of a request's future. -/
def futLookup : List (String × FutureState) → String → Option FutureState
  | [], _ => none
  | (k, v) :: rest, r => if k = r then some v else futLookup rest r

/-- Settle a request's future (no-op when the id has no future). -/
def setFuture : List (String × FutureState) → String → FutureState →
    List (String × FutureState)
  | [], _, _ => []
  | (k, x) :: rest, r, v =>
      if k = r then (k, v) :: rest else (k, x) :: setFuture rest r v

/-- The string correlation id of an inbound message, when present.
Request ids are uuid strings; a non-string `request_id` never matches a
registered key (and an unhashable one would crash the read loop), so
such messages are treated as unsolicited. -/
def msgRid (m : List (String × JValue)) : Option String :=
  match jget m "request_id" with
  | some (.str r) => some r
  | _ => none

/-- `_dispatch`: route one inbound gateway message.  A stream chunk
with a registered sink is delivered to the sink (sink exceptions are
swallowed) and does not settle anything; `stream_end` falls through to
settlement; any message whose truthy id matches a pending request
settles its future — with a failure when a truthy `error` field is
present — only if the future is not already done.  Latency counters are
omitted. -/
def dispatch (s : GwState) (message : List (String × JValue)) : GwState :=
  match msgRid message with
  | none => s
  | some r =>
      if ((jget message "type").getD (.str "response")) = JValue.str "stream_chunk"
          ∧ s.stream_callbacks.contains r then
        { s with chunkLog := s.chunkLog ++ [(r, (jget message "content").getD (.str ""))] }
      else if r ≠ "" ∧ (s.pending.map PendingRequest.request_id).contains r then
        (match futLookup s.futures r with
        | some .pending =>
            if ((jget message "error").getD .null).truthy then
              { s with futures := (setFuture s.futures r
                  (.failed (.runtimeError ((jget message "error").getD .null)))) }
            else
              { s with futures := (setFuture s.futures r (.ok message)) }
        | _ => s)
      else s

/-- Does `_dispatch` of `m` settle the request `r` (given the sink
registry `callbacks` and `r` registered, unsettled)?  Any message
referencing `r` settles it except a stream chunk with a registered
sink. -/
def settlesFor (callbacks : List String) (r : String) (m : List (String × JValue)) : Bool :=
  decide (msgRid m = some r ∧ r ≠ "" ∧
    ¬((((jget m "type").getD (.str "response")) = JValue.str "stream_chunk")
      ∧ callbacks.contains r = true))

/-- The settlement a message produces: failure when a truthy `error`
field is present, success with the whole message otherwise. -/
def settleValue (m : List (String × JValue)) : FutureState :=
  if ((jget m "error").getD .null).truthy
  then .failed (.runtimeError ((jget m "error").getD .null))
  else .ok m

/-- Is `m` a stream chunk for `r` that gets delivered to `r`'s sink? -/
def isChunkFor (callbacks : List String) (r : String) (m : List (String × JValue)) : Bool :=
  decide (msgRid m = some r ∧
    (((jget m "type").getD (.str "response")) = JValue.str "stream_chunk")
    ∧ callbacks.contains r = true)

/-- The settlement produced by the first settling message of a
sequence, if any. -/
def firstSettle (callbacks : List String) (r : String) :
    List (List (String × JValue)) → Option FutureState
  | [] => none
  | m :: rest =>
      if settlesFor callbacks r m then some (settleValue m)
      else firstSettle callbacks r rest

/-- Fail the futures of the still-pending requests (used by
`disconnect` and by reconnect exhaustion). -/
def failPendingFutures (pend : List String) (msg : String)
    (fs : List (String × FutureState)) : List (String × FutureState) :=
  fs.map (fun kv =>
    match kv with
    | (k, FutureState.pending) =>
        if pend.contains k then (k, FutureState.failed (.connectionError msg))
        else (k, FutureState.pending)
    | other => other)

/-- `disconnect`: cancel the background tasks, close the transport,
fail every still-pending request with
`ConnectionError("Gateway disconnected")`, clear the pending table and
go to DISCONNECTED. -/
def gwDisconnect (s : GwState) : GwState :=
  { s with
    futures := failPendingFutures (s.pending.map PendingRequest.request_id)
      "Gateway disconnected" s.futures
    pending := []
    status := .disconnected }

/-- How the environment behaves during one `send` call after the
request is transmitted: the budget elapses unsettled, the transmit
itself fails, or the read loop settles the future with a result or an
error. -/
inductive SendWorld where
  | timeout : SendWorld
  | rawSendFails : SendWorld
  | settledOk (result : List (String × JValue)) : SendWorld
  | settledErr (err : GatewayError) : SendWorld
deriving DecidableEq, Repr

/-- The outcome `send` produces for its caller. -/
inductive SendResult where
  | ok (result : List (String × JValue)) : SendResult
  | connectionError (msg : String) : SendResult
  | timeoutError : SendResult
  | runtimeError (err : JValue) : SendResult
deriving DecidableEq, Repr

/-- `send`: when not CONNECTED it first calls `connect()` itself
(outcome `connectOk`; on failure the call raises `ConnectionError` and
no request is registered).  Otherwise it registers a fresh correlation
id with a pending-table entry, a future, and — when a sink is supplied
— a stream-callback entry; transmits; and awaits settlement within the
timeout budget.  The `finally` clause always removes the id from the
pending table and the sink registry; the future records the final
outcome (`asyncio.wait_for` cancels it on timeout).  A transmit
failure additionally spawns the reconnect task (modelled separately by
`gwReconnect`). -/
def gwSend (s : GwState) (hasSink : Bool) (timeoutArg : Option ℚ)
    (cfg : GatewayConfig) (now : ℚ) (connectOk : Bool) (world : SendWorld) :
    SendResult × GwState :=
  if s.status ≠ GatewayStatus.connected ∧ ¬connectOk then
    (.connectionError "Cannot reach OpenClaw gateway",
      { s with status := .disconnected })
  else
    let s0 := if s.status ≠ GatewayStatus.connected
      then { s with status := .connected, reconnect_attempt := 0 } else s
    let rid := toString s0.next_uuid
    let tmo := timeoutArg.getD cfg.response_timeout
    let s1 := { s0 with
      next_uuid := s0.next_uuid + 1
      pending := s0.pending ++ [{ request_id := rid, sent_at := now, timeout := tmo }]
      futures := s0.futures ++ [(rid, .pending)]
      stream_callbacks :=
        if hasSink then s0.stream_callbacks ++ [rid] else s0.stream_callbacks }
    let finalize := fun (s2 : GwState) =>
      { s2 with
        pending := s2.pending.filter (fun p => decide (p.request_id ≠ rid))
        stream_callbacks := s2.stream_callbacks.filter (fun c => decide (c ≠ rid)) }
    match world with
    | .rawSendFails =>
        (.connectionError "Connection lost during send", finalize s1)
    | .timeout =>
        (.timeoutError, finalize { s1 with futures := setFuture s1.futures rid .cancelled })
    | .settledOk m =>
        (.ok m, finalize { s1 with futures := setFuture s1.futures rid (.ok m) })
    | .settledErr e =>
        ((match e with
          | .connectionError msg => SendResult.connectionError msg
          | .runtimeError v => SendResult.runtimeError v),
         finalize { s1 with futures := setFuture s1.futures rid (.failed e) })

/-- The `_reconnect` loop, driven by the per-attempt connect outcomes
(`true` = that attempt's `connect()` succeeded); `acc` accumulates the
backoff delays slept, in order.  Exceeding a positive attempt ceiling
fails all still-pending requests and goes FATAL.  On success the
attempt counter resets (inside `connect()`) and in-budget pending
requests are retransmitted, which does not change the tracked state.
If the outcomes are exhausted mid-loop the state is returned as-is
(run truncated before that attempt's connect). -/
def reconnectGo (cfg : GatewayConfig) : GwState → List Bool → List ℚ → GwState × List ℚ
  | s, outcomes, acc =>
      let a := s.reconnect_attempt + 1
      if 0 < cfg.reconnect_max_attempts ∧ cfg.reconnect_max_attempts < a then
        ({ s with
            status := .fatal
            reconnect_attempt := a
            futures := failPendingFutures (s.pending.map PendingRequest.request_id)
              "Gateway reconnection failed" s.futures
            pending := [] }, acc)
      else
        let delay := min (cfg.reconnect_delay_base * 2 ^ (a - 1)) cfg.reconnect_delay_max
        match outcomes with
        | [] => ({ s with reconnect_attempt := a }, acc)
        | ok :: rest =>
            if ok then
              ({ s with status := .connected, reconnect_attempt := 0 }, acc ++ [delay])
            else
              reconnectGo cfg { s with status := .disconnected, reconnect_attempt := a }
                rest (acc ++ [delay])

/-- `_reconnect` entry: set RECONNECTING, then loop. -/
def gwReconnect (cfg : GatewayConfig) (s : GwState) (outcomes : List Bool) :
    GwState × List ℚ :=
  reconnectGo cfg { s with status := .reconnecting } outcomes []

/-- The exponential-backoff delays of `k` consecutive attempts starting
with attempt counter `a` (attempt number `a + 1`). -/
def backoffDelays (cfg : GatewayConfig) (a : Nat) : Nat → List ℚ
  | 0 => []
  | k + 1 =>
      min (cfg.reconnect_delay_base * 2 ^ a) cfg.reconnect_delay_max
        :: backoffDelays cfg (a + 1) k

/-- The ids deleted by `_evict_stale_entities` on a registry `l` with
capacity `cap`: the overflow-many smallest entities in the eviction
order. -/
def removedIds (l : List Entity) (cap : Nat) : List Nat :=
  ((l.mergeSort entLe).take (l.length - cap)).map Entity.id

/-- Concrete gateway state used to witness the dispatch and disconnect
properties: one pending request `"1"` with a registered sink and an
unsettled future. -/
def gwWitnessState : GwState :=
  { status := .connected, pending := [⟨"1", 0, 60⟩], stream_callbacks := ["1"]
    futures := [("1", .pending)], chunkLog := [], reconnect_attempt := 0, next_uuid := 2 }

/-- Concrete inbound message sequence used to witness exactly-once
settlement: a streaming chunk, a `stream_end`, then a terminal
response, all referencing request `"1"`. -/
def gwWitnessMsgs : List (List (String × JValue)) :=
  [[("request_id", .str "1"), ("type", .str "stream_chunk"), ("content", .str "Hel")],
   [("request_id", .str "1"), ("type", .str "stream_end")],
   [("request_id", .str "1"), ("content", .str "full response")]]

/-- Concrete registry state used to witness the eviction
characterization: four entities, capacity 3, "Gamma" heavily
referenced. -/
def capacityWitnessCtx : ConversationContext :=
  { session_id := "s", window_size := 20, max_entities := 3, turns := []
    entities := [⟨0, "Alpha", "company", [], [], 1, 1⟩, ⟨1, "Beta", "company", [], [], 2, 1⟩,
      ⟨2, "Gamma", "company", [], [], 9, 5⟩, ⟨3, "Delta", "company", [], [], 5, 1⟩]
    session_summary := "", created_at := 0, topic_stack := [], next_id := 4 }

/-- Concrete call sequence used to witness the capacity invariant:
insert Alpha, Beta, Gamma, touch Gamma, insert Delta, at capacity 3. -/
def capacityWitnessCalls : List TrackCall :=
  [⟨"Alpha", "company", [], [], 1⟩, ⟨"Beta", "company", [], [], 2⟩,
    ⟨"Gamma", "company", [], [], 3⟩, ⟨"Gamma", "company", [], [], 4⟩,
    ⟨"Delta", "company", [], [], 5⟩]

-- ━━━ theorems ━━━━━━━━━━━━━━━━━━━━━━━━━━━━━━━━━━━━━━━━━━━━━━━━━━━━━━━

/-- C5 (amended: window size ≥ 1; a window size of 0 sends the whole
history, see the counterexample): for every configured window size ≥ 1
and every number of recorded turns, the `turns` field of the outbound
payload built by `get_brain_context` has length
`min windowSize totalTurnsRecorded`, consists of exactly the most recent
turns in their original oldest-first order (the suffix of the turn
history), and the payload's `turn_count` field still reports the full
retained history length — building the payload is a pure read that
leaves the turn history untouched. -/
theorem get_brain_context_window_spec (c : ConversationContext) (now : Nat)
    (hw : 1 ≤ c.window_size) :
    (c.get_brain_context now).turns.length = min c.window_size c.turns.length ∧
    (c.get_brain_context now).turns =
      (c.turns.drop (c.turns.length - c.window_size)).map Turn.toPayload ∧
    (c.get_brain_context now).turn_count = c.turns.length := by
  have hk : c.window_size ≠ 0 := by omega
  refine ⟨?_, ?_, rfl⟩
  · simp only [ConversationContext.get_brain_context, pySliceLast, hk, if_false,
      List.length_map, List.length_drop]
    omega
  · simp [ConversationContext.get_brain_context, pySliceLast, hk]

/-- Witness for C5's theorem at a concrete context: window size 2,
three recorded turns. -/
theorem get_brain_context_window_spec_witness :
    (let c :=
      ((((ConversationContext.init "s" 2 10 0).add_user_turn "a" [] 1).2.add_user_turn
          "b" [] 2).2.add_user_turn "c" [] 3).2
    (c.get_brain_context 4).turns.length = min c.window_size c.turns.length ∧
    (c.get_brain_context 4).turns =
      (c.turns.drop (c.turns.length - c.window_size)).map Turn.toPayload ∧
    (c.get_brain_context 4).turn_count = c.turns.length) :=
  get_brain_context_window_spec _ 4 (by decide)

/-- C5 counterexample: with configured window size 0 and one recorded
turn, the payload's `turns` list has length 1 (the Python slice
`turns[-0:]` is the whole list), not `min 0 1 = 0` as the claim states. -/
theorem get_brain_context_window_zero_counterexample :
    ¬ (let c := ((ConversationContext.init "s" 0 10 0).add_user_turn "hello" [] 1).2
       (c.get_brain_context 2).turns.length = min c.window_size c.turns.length) := by
  decide

theorem entLe_trans : ∀ a b c : Entity, entLe a b = true → entLe b c = true →
    entLe a c = true := by
  intro a b c hab hbc
  simp only [entLe, decide_eq_true_eq] at hab hbc ⊢
  omega

theorem entLe_total : ∀ a b : Entity, (entLe a b || entLe b a) = true := by
  intro a b
  simp only [entLe, Bool.or_eq_true, decide_eq_true_eq]
  omega

theorem length_updateFirst (p : α → Bool) (f : α → α) :
    ∀ l : List α, (updateFirst p f l).length = l.length := by
  intro l
  induction l with
  | nil => rfl
  | cons x xs ih =>
      by_cases h : p x <;> simp [updateFirst, h, ih]

theorem countP_not_contains (ids : List Nat) (l : List Entity) :
    List.countP (fun e => !(ids.contains e.id)) l
      = l.length - List.countP (fun e => ids.contains e.id) l := by
  have h2 := List.length_eq_countP_add_countP (fun e : Entity => ids.contains e.id) (l := l)
  have h3 : List.countP (fun a : Entity => decide ¬(ids.contains a.id = true)) l
      = List.countP (fun e : Entity => !(ids.contains e.id)) l :=
    List.countP_congr (fun x _ => by
      by_cases hx : x.id ∈ ids
      · simp [hx]
      · simp [hx])
  omega

theorem countP_removed_ge (l : List Entity) (cap : Nat) (hcap : cap ≤ l.length) :
    l.length - cap ≤ List.countP
      (fun e => (((l.mergeSort entLe).take (l.length - cap)).map Entity.id).contains e.id)
      l := by
  set sorted := l.mergeSort entLe with hsorted
  set k := l.length - cap with hk
  set ids := (sorted.take k).map Entity.id with hids
  have hperm : sorted.Perm l := List.mergeSort_perm l entLe
  have hlen : sorted.length = l.length := hperm.length_eq
  have htklen : (sorted.take k).length = k := by
    rw [List.length_take]
    omega
  have hmemtk : ∀ a ∈ sorted.take k, (ids.contains a.id) = true := by
    intro a ha
    have : a.id ∈ ids := List.mem_map_of_mem Entity.id ha
    simpa using this
  have hcount_take : List.countP (fun e => ids.contains e.id) (sorted.take k) = k := by
    rw [List.countP_eq_length.mpr hmemtk, htklen]
  have hsplit := List.take_append_drop k sorted
  calc l.length - cap = k := by omega
    _ = List.countP (fun e => ids.contains e.id) (sorted.take k) := hcount_take.symm
    _ ≤ List.countP (fun e => ids.contains e.id) (sorted.take k)
          + List.countP (fun e => ids.contains e.id) (sorted.drop k) := Nat.le_add_right _ _
    _ = List.countP (fun e => ids.contains e.id) sorted := by
          rw [← List.countP_append, hsplit]
    _ = List.countP (fun e => ids.contains e.id) l :=
          hperm.countP_eq (fun e => ids.contains e.id)

theorem evict_length_le (c : ConversationContext)
    (h : c.max_entities ≤ c.entities.length) :
    c.evict_stale_entities.entities.length ≤ c.max_entities := by
  have hev : c.evict_stale_entities.entities
      = c.entities.filter (fun e =>
          !((((c.entities.mergeSort entLe).take
              (c.entities.length - c.max_entities)).map Entity.id).contains e.id)) := rfl
  have h1 := countP_not_contains
    (((c.entities.mergeSort entLe).take
        (c.entities.length - c.max_entities)).map Entity.id) c.entities
  have h2 := countP_removed_ge c.entities c.max_entities h
  have h3 := List.countP_eq_length_filter
    (fun e => !((((c.entities.mergeSort entLe).take
        (c.entities.length - c.max_entities)).map Entity.id).contains e.id)) c.entities
  rw [hev]
  omega

theorem trackStep_preserves_capacity (c : ConversationContext) (t : TrackCall)
    (h : c.entities.length ≤ c.max_entities) :
    (trackStep c t).entities.length ≤ (trackStep c t).max_entities ∧
    (trackStep c t).max_entities = c.max_entities := by
  unfold trackStep ConversationContext.track_entity
  cases hf : c.entities.find? (ConversationContext.entityMatches (needleOf t.name)) with
  | some e =>
      simp only [hf]
      refine ⟨?_, by trivial⟩
      rw [length_updateFirst]
      exact h
  | none =>
      simp only [hf]
      split_ifs with hov
      · exact ⟨evict_length_le _ (le_of_lt hov), by trivial⟩
      · exact ⟨Nat.not_lt.mp hov, by trivial⟩

theorem foldl_trackStep_capacity :
    ∀ (calls : List TrackCall) (c : ConversationContext),
      c.entities.length ≤ c.max_entities →
      (calls.foldl trackStep c).entities.length ≤ (calls.foldl trackStep c).max_entities ∧
      (calls.foldl trackStep c).max_entities = c.max_entities := by
  intro calls
  induction calls with
  | nil => intro c h; exact ⟨h, rfl⟩
  | cons t rest ih =>
      intro c h
      have h1 := trackStep_preserves_capacity c t h
      have h2 := ih (trackStep c t) h1.1
      exact ⟨h2.1, h2.2.trans h1.2⟩

theorem gone_eq_removed (l : List Entity) (ids : List Nat) :
    l.filter (fun e =>
      !(((l.filter (fun e2 => !(ids.contains e2.id))).map Entity.id).contains e.id))
      = l.filter (fun e => ids.contains e.id) := by
  apply List.filter_congr
  intro e he
  by_cases hm : e.id ∈ ids
  · have h1 : e.id ∉ (l.filter (fun e2 => !(ids.contains e2.id))).map Entity.id := by
      intro hmem
      simp only [List.mem_map] at hmem
      obtain ⟨b, hb, hbe⟩ := hmem
      have hb2 := (List.mem_filter.mp hb).2
      rw [Bool.not_eq_true'] at hb2
      have hnot : b.id ∉ ids := by
        intro hcon
        have hc2 : ids.contains b.id = true := by simpa using hcon
        rw [hc2] at hb2
        cases hb2
      exact hnot (hbe ▸ hm)
    have h2 : ((l.filter (fun e2 => !(ids.contains e2.id))).map Entity.id).contains e.id
        = false := by
      rw [Bool.eq_false_iff]
      intro hcon
      exact h1 (by simpa using hcon)
    rw [h2]
    simp [hm]
  · have h2 : e ∈ l.filter (fun e2 => !(ids.contains e2.id)) := by
      rw [List.mem_filter]
      exact ⟨he, by simp [hm]⟩
    have h3 : ((l.filter (fun e2 => !(ids.contains e2.id))).map Entity.id).contains e.id
        = true := by
      simpa using List.mem_map_of_mem Entity.id h2
    rw [h3]
    simp [hm]

theorem evictCore (l : List Entity) (cap : Nat) (hn : (l.map Entity.id).Nodup) :
    (l.filter (fun e => !((removedIds l cap).contains e.id))).length = min l.length cap ∧
    (l.filter (fun e => (removedIds l cap).contains e.id)).length = l.length - cap ∧
    ∀ a ∈ l.filter (fun e => (removedIds l cap).contains e.id),
      ∀ b ∈ l.filter (fun e => !((removedIds l cap).contains e.id)), entLe a b = true := by
  have hperm : (l.mergeSort entLe).Perm l := List.mergeSort_perm l entLe
  have hlen : (l.mergeSort entLe).length = l.length := hperm.length_eq
  have htk : ((l.mergeSort entLe).take (l.length - cap)).length = l.length - cap := by
    rw [List.length_take]
    omega
  have hmemtk : ∀ a ∈ (l.mergeSort entLe).take (l.length - cap),
      ((removedIds l cap).contains a.id) = true := by
    intro a ha
    have : a.id ∈ removedIds l cap := List.mem_map_of_mem Entity.id ha
    simpa using this
  have hnds : ((l.mergeSort entLe).map Entity.id).Nodup :=
    ((hperm.map Entity.id).nodup_iff).mpr hn
  have hdisj : ∀ a ∈ (l.mergeSort entLe).drop (l.length - cap),
      ((removedIds l cap).contains a.id) = false := by
    intro a ha
    have hsplit := List.take_append_drop (l.length - cap) (l.mergeSort entLe)
    have hnd2 := hnds
    rw [← hsplit, List.map_append, List.nodup_append] at hnd2
    have hnotmem : a.id ∉ removedIds l cap := by
      intro hmem
      exact hnd2.2.2 hmem (List.mem_map_of_mem Entity.id ha)
    rw [Bool.eq_false_iff]
    intro hcon
    exact hnotmem (by simpa using hcon)
  have hctake : List.countP (fun e => (removedIds l cap).contains e.id)
      ((l.mergeSort entLe).take (l.length - cap)) = l.length - cap := by
    have h1 := List.countP_eq_length.mpr hmemtk
    omega
  have hcdrop : List.countP (fun e => (removedIds l cap).contains e.id)
      ((l.mergeSort entLe).drop (l.length - cap)) = 0 := by
    rw [List.countP_eq_zero]
    intro a ha
    rw [hdisj a ha]
    simp
  have hcount : List.countP (fun e => (removedIds l cap).contains e.id) l
      = l.length - cap := by
    have h1 := hperm.countP_eq (fun e => (removedIds l cap).contains e.id)
    have h2 : List.countP (fun e => (removedIds l cap).contains e.id) (l.mergeSort entLe)
        = l.length - cap := by
      conv_lhs => rw [← List.take_append_drop (l.length - cap) (l.mergeSort entLe)]
      rw [List.countP_append, hctake, hcdrop]
      omega
    rw [← h1]
    exact h2
  have hkeptP := countP_not_contains (removedIds l cap) l
  have hkeptF := List.countP_eq_length_filter
    (fun e => !((removedIds l cap).contains e.id)) l
  have hgoneF := List.countP_eq_length_filter
    (fun e => (removedIds l cap).contains e.id) l
  refine ⟨by omega, by omega, ?_⟩
  intro a ha b hb
  have ha2 := List.mem_filter.mp ha
  have hb2 := List.mem_filter.mp hb
  have haS : a ∈ l.mergeSort entLe := hperm.mem_iff.mpr ha2.1
  have hbS : b ∈ l.mergeSort entLe := hperm.mem_iff.mpr hb2.1
  have hsplit := List.take_append_drop (l.length - cap) (l.mergeSort entLe)
  rw [← hsplit, List.mem_append] at haS hbS
  have haT : a ∈ (l.mergeSort entLe).take (l.length - cap) := by
    rcases haS with h | h
    · exact h
    · exfalso
      have hx := ha2.2
      rw [hdisj a h] at hx
      cases hx
  have hbD : b ∈ (l.mergeSort entLe).drop (l.length - cap) := by
    rcases hbS with h | h
    · exfalso
      have hx := hb2.2
      rw [hmemtk b h] at hx
      cases hx
    · exact h
  have hpair := @List.sorted_mergeSort _ entLe entLe_trans entLe_total l
  rw [← hsplit, List.pairwise_append] at hpair
  exact hpair.2.2 a haT b hbD

/-- C3: for every sequence of `track_entity` calls from a fresh context
and any configured capacity, the registry size is at most the capacity
after every call (every prefix of calls is itself such a sequence); and
`_evict_stale_entities` — invoked by `track_entity` exactly when the
registry exceeds its capacity right after an insertion, on the registry
including the just-inserted entity — retains exactly
`min size capacity` entities, evicts exactly `size - capacity` entities,
and every evicted entity's `(reference_count, last_referenced_at)` key
is at most every retained entity's key in the eviction order (i.e. the
evicted are exactly the entities with the lowest keys; under key ties
Python's stable sort evicts the earliest-inserted, and any such choice
satisfies this bound).  Distinct ids are guaranteed by `uuid4` keys and
are a hypothesis here. -/
theorem track_entity_capacity_spec :
    (∀ (sid : String) (ws cap now0 : Nat) (calls : List TrackCall),
      (calls.foldl trackStep (ConversationContext.init sid ws cap now0)).entities.length
        ≤ cap) ∧
    (∀ c : ConversationContext, (c.entities.map Entity.id).Nodup →
      c.evict_stale_entities.entities.length = min c.entities.length c.max_entities ∧
      (c.entities.filter (fun e =>
        !((c.evict_stale_entities.entities.map Entity.id).contains e.id))).length
        = c.entities.length - c.max_entities ∧
      (∀ a ∈ c.entities.filter (fun e =>
          !((c.evict_stale_entities.entities.map Entity.id).contains e.id)),
        ∀ b ∈ c.evict_stale_entities.entities, entLe a b = true)) := by
  constructor
  · intro sid ws cap now0 calls
    have h := foldl_trackStep_capacity calls (ConversationContext.init sid ws cap now0)
      (by simp [ConversationContext.init])
    have h2 : (calls.foldl trackStep (ConversationContext.init sid ws cap now0)).max_entities
        = cap := h.2
    exact le_of_le_of_eq h.1 h2
  · intro c hn
    have hev : c.evict_stale_entities.entities
        = c.entities.filter
            (fun e => !((removedIds c.entities c.max_entities).contains e.id)) := rfl
    have hgone : c.entities.filter (fun e =>
        !((c.evict_stale_entities.entities.map Entity.id).contains e.id))
        = c.entities.filter
            (fun e => (removedIds c.entities c.max_entities).contains e.id) := by
      rw [hev]
      exact gone_eq_removed c.entities (removedIds c.entities c.max_entities)
    have hc := evictCore c.entities c.max_entities hn
    refine ⟨?_, ?_, ?_⟩
    · rw [hev]
      exact hc.1
    · rw [hgone]
      exact hc.2.1
    · intro a ha b hb
      rw [hgone] at ha
      rw [hev] at hb
      exact hc.2.2 a ha b hb

/-- Witness for C3's theorem: the spec's scenario (capacity 3, insert
Alpha/Beta/Gamma, touch Gamma, insert Delta) for the fold part, and a
concrete four-entity registry over capacity 3 for the eviction part. -/
theorem track_entity_capacity_spec_witness :
    ((capacityWitnessCalls.foldl trackStep
        (ConversationContext.init "s" 20 3 0)).entities.length ≤ 3) ∧
    capacityWitnessCtx.evict_stale_entities.entities.length
      = min capacityWitnessCtx.entities.length capacityWitnessCtx.max_entities ∧
    (capacityWitnessCtx.entities.filter (fun e =>
      !((capacityWitnessCtx.evict_stale_entities.entities.map Entity.id).contains
        e.id))).length
      = capacityWitnessCtx.entities.length - capacityWitnessCtx.max_entities ∧
    (∀ a ∈ capacityWitnessCtx.entities.filter (fun e =>
        !((capacityWitnessCtx.evict_stale_entities.entities.map Entity.id).contains e.id)),
      ∀ b ∈ capacityWitnessCtx.evict_stale_entities.entities, entLe a b = true) := by
  have h2 := track_entity_capacity_spec.2 capacityWitnessCtx (by decide)
  exact ⟨track_entity_capacity_spec.1 "s" 20 3 0 capacityWitnessCalls,
    h2.1, h2.2.1, h2.2.2⟩

theorem mem_map_pyLower_mergeAliases (ns : List String) :
    ∀ (ex : List String) (s : String),
      (s ∈ (mergeAliases ex ns).map pyLower ↔
        s ∈ (ex ++ ns).map pyLower) := by
  induction ns with
  | nil => intro ex s; simp [mergeAliases]
  | cons a rest ih =>
      intro ex s
      simp only [mergeAliases]
      by_cases h : (ex.map pyLower).contains (pyLower a)
      · rw [if_pos h, ih ex s]
        have ha : pyLower a ∈ ex.map pyLower := by simpa using h
        simp only [List.map_append, List.mem_append, List.map_cons, List.mem_cons]
        constructor
        · rintro (h1 | h2)
          · exact Or.inl h1
          · exact Or.inr (Or.inr h2)
        · rintro (h1 | h2 | h3)
          · exact Or.inl h1
          · exact Or.inl (h2 ▸ ha)
          · exact Or.inr h3
      · rw [if_neg h, ih (ex ++ [a]) s]
        simp only [List.map_append, List.mem_append, List.map_cons, List.mem_cons,
          List.map_nil, List.mem_singleton]
        tauto

theorem nodup_map_pyLower_mergeAliases (ns : List String) :
    ∀ ex : List String, (ex.map pyLower).Nodup →
      ((mergeAliases ex ns).map pyLower).Nodup := by
  induction ns with
  | nil => intro ex h; simpa [mergeAliases] using h
  | cons a rest ih =>
      intro ex h
      simp only [mergeAliases]
      by_cases hc : (ex.map pyLower).contains (pyLower a)
      · rw [if_pos hc]; exact ih ex h
      · rw [if_neg hc]
        refine ih (ex ++ [a]) ?_
        have ha : pyLower a ∉ ex.map pyLower := by
          intro hmem
          exact hc (by simpa using hmem)
        simp only [List.map_append, List.map_cons, List.map_nil, List.nodup_append,
          List.nodup_cons, List.not_mem_nil, not_false_iff, List.nodup_nil, and_true,
          List.Disjoint]
        refine ⟨h, by simp, ?_⟩
        intro x hx hxa
        simp only [List.mem_cons, List.not_mem_nil, or_false] at hxa
        exact ha (hxa ▸ hx)

theorem jget_dictSet_self (k : String) (v : JValue) :
    ∀ m : List (String × JValue), jget (dictSet m k v) k = some v := by
  intro m
  induction m with
  | nil => simp [dictSet, jget]
  | cons kv rest ih =>
      obtain ⟨k2, v2⟩ := kv
      by_cases h : k2 = k <;> simp [dictSet, jget, h, ih]

theorem isSome_jget_dictSet (k : String) (v : JValue) :
    ∀ (m : List (String × JValue)) (k2 : String),
      ((jget (dictSet m k v) k2).isSome ↔ ((jget m k2).isSome ∨ k2 = k)) := by
  intro m
  induction m with
  | nil =>
      intro k2
      by_cases h : k = k2
      · subst h
        simp [dictSet, jget]
      · simp [dictSet, jget, h, Ne.symm h]
  | cons kv rest ih =>
      obtain ⟨k1, v1⟩ := kv
      intro k2
      by_cases h1 : k1 = k
      · subst h1
        by_cases h2 : k1 = k2
        · subst h2
          simp [dictSet, jget]
        · simp [dictSet, jget, h2, Ne.symm h2]
      · by_cases h2 : k1 = k2
        · subst h2
          simp [dictSet, jget, h1]
        · simp [dictSet, jget, h1, h2, ih k2]

theorem isSome_jget_dictUpdate (new : List (String × JValue)) :
    ∀ (old : List (String × JValue)) (k : String),
      ((jget old k).isSome ∨ (jget new k).isSome) →
      (jget (dictUpdate old new) k).isSome := by
  induction new with
  | nil =>
      intro old k h
      simp only [jget, Option.isSome_none, Bool.false_eq_true, or_false] at h
      simpa [dictUpdate] using h
  | cons kv rest ih =>
      obtain ⟨k1, v1⟩ := kv
      intro old k h
      simp only [dictUpdate]
      apply ih
      by_cases hk : k1 = k
      · subst hk
        left
        rw [jget_dictSet_self]
        rfl
      · rcases h with h | h
        · left
          exact (isSome_jget_dictSet k1 v1 old k).mpr (Or.inl h)
        · right
          simpa [jget, hk] using h

theorem track_same_entity_aux (canonLower : String) :
    ∀ (calls : List TrackCall) (c : ConversationContext) (e : Entity)
      (pool : List String),
      c.entities = [e] →
      pyLower e.canonical_name = canonLower →
      (∀ s, s ∈ e.aliases.map pyLower ↔ s ∈ pool.map pyLower) →
      (e.aliases.map pyLower).Nodup →
      keysOk canonLower pool calls = true →
      ∃ e2 : Entity,
        (calls.foldl trackStep c).entities = [e2] ∧
        e2.canonical_name = e.canonical_name ∧
        e2.reference_count = e.reference_count + calls.length ∧
        (∀ s, s ∈ e2.aliases.map pyLower ↔
          s ∈ (pool ++ (calls.map TrackCall.aliases).flatten).map pyLower) ∧
        (e2.aliases.map pyLower).Nodup ∧
        (∀ k, ((jget e.metadata k).isSome ∨ ∃ t ∈ calls, (jget t.metadata k).isSome) →
          (jget e2.metadata k).isSome) := by
  intro calls
  induction calls with
  | nil =>
      intro c e pool hc hcanon hiff hnd _
      refine ⟨e, by simpa using hc, rfl, by simp, ?_, hnd, ?_⟩
      · intro s; simpa using hiff s
      · intro k hk
        rcases hk with hk | ⟨t, ht, _⟩
        · exact hk
        · cases ht
  | cons t rest ih =>
      intro c e pool hc hcanon hiff hnd hkeys
      have hkeys2 : ((needleOf t.name == canonLower ||
          (pool.map pyLower).contains (needleOf t.name)) = true) ∧
          keysOk canonLower (pool ++ t.aliases) rest = true := by
        simpa [keysOk, Bool.and_eq_true] using hkeys
      -- the call's needle matches the single registry entity
      have hmatch : ConversationContext.entityMatches (needleOf t.name) e = true := by
        rcases Bool.or_eq_true _ _ |>.mp hkeys2.1 with hcase | hcase
        · have heq : needleOf t.name = canonLower := by simpa using hcase
          simp only [ConversationContext.entityMatches, Bool.or_eq_true, beq_iff_eq]
          exact Or.inl (by rw [hcanon, heq])
        · have hmem : needleOf t.name ∈ pool.map pyLower := by simpa using hcase
          have hmem2 := (hiff (needleOf t.name)).mpr hmem
          simp only [List.mem_map] at hmem2
          obtain ⟨a, ha, hae⟩ := hmem2
          simp only [ConversationContext.entityMatches, Bool.or_eq_true, beq_iff_eq,
            List.any_eq_true]
          exact Or.inr ⟨a, ha, hae⟩
      -- compute one step of the fold
      have hstep : (trackStep c t).entities =
          [{ (e.touch t.now) with
              aliases := mergeAliases (e.touch t.now).aliases t.aliases
              metadata := dictUpdate (e.touch t.now).metadata t.metadata }] := by
        simp only [trackStep, ConversationContext.track_entity, hc, List.find?,
          hmatch, updateFirst, if_pos hmatch]
        simp
      set e1 : Entity :=
        { (e.touch t.now) with
            aliases := mergeAliases (e.touch t.now).aliases t.aliases
            metadata := dictUpdate (e.touch t.now).metadata t.metadata } with he1
      obtain ⟨e2, h1, h2, h3, h4, h5, h6⟩ :=
        ih (trackStep c t) e1 (pool ++ t.aliases) hstep
          (by simpa [he1, Entity.touch] using hcanon)
          (by
            intro s
            have := mem_map_pyLower_mergeAliases t.aliases e.aliases s
            simp only [he1, Entity.touch]
            rw [this]
            simp only [List.map_append, List.mem_append]
            rw [hiff s])
          (by
            simpa [he1, Entity.touch] using
              nodup_map_pyLower_mergeAliases t.aliases e.aliases hnd)
          hkeys2.2
      refine ⟨e2, by simpa [List.foldl] using h1, ?_, ?_, ?_, h5, ?_⟩
      · rw [h2]; simp [he1, Entity.touch]
      · rw [h3]; simp only [he1, Entity.touch, List.length_cons]; omega
      · intro s
        rw [h4 s]
        simp only [List.map_cons, List.flatten, List.map_append, List.mem_append,
          List.append_assoc]
      · intro k hk
        apply h6 k
        rcases hk with hk | ⟨u, hu, hsome⟩
        · left
          simp only [he1, Entity.touch]
          exact isSome_jget_dictUpdate t.metadata e.metadata k (Or.inl hk)
        · rcases List.mem_cons.mp hu with rfl | hu2
          · left
            simp only [he1, Entity.touch]
            exact isSome_jget_dictUpdate u.metadata e.metadata k (Or.inr hsome)
          · right
            exact ⟨u, hu2, hsome⟩

/-- C4 (amended): for every sequence of `n ≥ 1` `track_entity` calls in
which the first call registers canonical name `name`, and every later
call uses a lookup key whose lowered-and-stripped form equals the
lowered canonical name (this is what "the same canonical name in any
casing" requires operationally: the lookup strips the key, so a
canonical name carrying surrounding whitespace can never be re-matched —
see the counterexample) or equals an alias registered by an earlier call
(with capacity never exceeded, here: capacity ≥ 1 starting from an empty
registry), exactly one Entity persists, its reference count equals `n`,
its alias set is the case-insensitive union of all supplied aliases —
with case-insensitive uniqueness provided the initial aliases were
case-insensitively distinct — and every metadata key supplied by any
call is present in the merged metadata. -/
theorem track_entity_same_name_spec
    (sid : String) (ws cap now0 : Nat) (name etype : String)
    (A : List String) (md : List (String × JValue)) (t0 : Nat)
    (calls : List TrackCall)
    (hcap : 1 ≤ cap)
    (hA : (A.map pyLower).Nodup)
    (hkeys : keysOk (pyLower name) A calls = true) :
    ∃ e : Entity,
      (calls.foldl trackStep
        ((ConversationContext.init sid ws cap now0).track_entity name etype A md t0)).entities
        = [e] ∧
      e.canonical_name = name ∧
      e.reference_count = calls.length + 1 ∧
      (∀ s, s ∈ e.aliases.map pyLower ↔
        s ∈ (A ++ (calls.map TrackCall.aliases).flatten).map pyLower) ∧
      (e.aliases.map pyLower).Nodup ∧
      (∀ k, ((jget md k).isSome ∨ ∃ t ∈ calls, (jget t.metadata k).isSome) →
        (jget e.metadata k).isSome) := by
  have hfirst : ((ConversationContext.init sid ws cap now0).track_entity
      name etype A md t0).entities =
      [{ id := 0, canonical_name := name, entity_type := etype, aliases := A
         metadata := md, last_referenced_at := t0, reference_count := 1 }] := by
    have hcaplt : ¬ (cap < 1) := by omega
    simp [ConversationContext.track_entity, ConversationContext.init, List.find?, hcaplt]
  obtain ⟨e, h1, h2, h3, h4, h5, h6⟩ :=
    track_same_entity_aux (pyLower name) calls
      ((ConversationContext.init sid ws cap now0).track_entity name etype A md t0)
      { id := 0, canonical_name := name, entity_type := etype, aliases := A
        metadata := md, last_referenced_at := t0, reference_count := 1 }
      A hfirst rfl (by intro s; simp) hA hkeys
  refine ⟨e, h1, h2, ?_, h4, h5, h6⟩
  rw [h3]
  show 1 + calls.length = calls.length + 1
  omega

/-- Witness for C4's theorem: "Marcus" registered with alias "Marc",
then referenced via "marc" (registering alias "Marco") and via
" MARCO " — one entity, reference count 3. -/
theorem track_entity_same_name_spec_witness :
    ((([⟨"marc", "person", ["Marco"], [("deal", JValue.str "alpha")], 5⟩,
        ⟨" MARCO ", "person", [], [], 6⟩] : List TrackCall).foldl trackStep
      ((ConversationContext.init "s" 20 200 0).track_entity "Marcus" "person" ["Marc"]
        [] 1)).entities.map
        (fun e => (e.canonical_name, e.reference_count))) = [("Marcus", 3)] := by
  obtain ⟨e, h1, h2, h3, _, _, _⟩ :=
    track_entity_same_name_spec "s" 20 200 0 "Marcus" "person" ["Marc"] [] 1
      [⟨"marc", "person", ["Marco"], [("deal", JValue.str "alpha")], 5⟩,
        ⟨" MARCO ", "person", [], [], 6⟩]
      (by decide) (by decide) (by decide)
  rw [h1]
  simp [h2, h3]

theorem dispatch_pending (s : GwState) (m : List (String × JValue)) :
    (dispatch s m).pending = s.pending := by
  unfold dispatch
  cases hm : msgRid m with
  | none => rfl
  | some r =>
      dsimp only
      by_cases h1 : ((jget m "type").getD (JValue.str "response")) = JValue.str "stream_chunk"
          ∧ s.stream_callbacks.contains r = true
      · rw [if_pos h1]
      · rw [if_neg h1]
        by_cases h2 : r ≠ "" ∧ (s.pending.map PendingRequest.request_id).contains r = true
        · rw [if_pos h2]
          cases hfut : futLookup s.futures r with
          | none => rfl
          | some v =>
              cases v with
              | pending =>
                  dsimp only
                  split_ifs <;> rfl
              | ok res => rfl
              | failed e => rfl
              | cancelled => rfl
        · rw [if_neg h2]

theorem dispatch_stream_callbacks (s : GwState) (m : List (String × JValue)) :
    (dispatch s m).stream_callbacks = s.stream_callbacks := by
  unfold dispatch
  cases hm : msgRid m with
  | none => rfl
  | some r =>
      dsimp only
      by_cases h1 : ((jget m "type").getD (JValue.str "response")) = JValue.str "stream_chunk"
          ∧ s.stream_callbacks.contains r = true
      · rw [if_pos h1]
      · rw [if_neg h1]
        by_cases h2 : r ≠ "" ∧ (s.pending.map PendingRequest.request_id).contains r = true
        · rw [if_pos h2]
          cases hfut : futLookup s.futures r with
          | none => rfl
          | some v =>
              cases v with
              | pending =>
                  dsimp only
                  split_ifs <;> rfl
              | ok res => rfl
              | failed e => rfl
              | cancelled => rfl
        · rw [if_neg h2]

theorem futLookup_setFuture_self (r : String) (v : FutureState) :
    ∀ (fs : List (String × FutureState)) (w : FutureState),
      futLookup fs r = some w → futLookup (setFuture fs r v) r = some v := by
  intro fs
  induction fs with
  | nil => intro w h; cases h
  | cons kv rest ih =>
      obtain ⟨k, x⟩ := kv
      intro w h
      by_cases hk : k = r
      · simp [setFuture, futLookup, hk]
      · simp only [setFuture, futLookup, hk, if_false, if_neg hk] at h ⊢
        exact ih w h

theorem futLookup_setFuture_ne (r2 : String) (v : FutureState) (r : String) (h : r ≠ r2) :
    ∀ fs : List (String × FutureState),
      futLookup (setFuture fs r2 v) r = futLookup fs r := by
  intro fs
  induction fs with
  | nil => rfl
  | cons kv rest ih =>
      obtain ⟨k, x⟩ := kv
      by_cases hk : k = r2
      · subst hk
        have hkr : ¬ (k = r) := fun he => h he.symm
        simp [setFuture, futLookup, hkr]
      · by_cases hkr : k = r <;> simp [setFuture, futLookup, hk, hkr, ih, h]

theorem dispatch_step_unsettled (s : GwState) (m : List (String × JValue)) (r : String)
    (hr0 : r ≠ "")
    (hreg : (s.pending.map PendingRequest.request_id).contains r = true)
    (hf : futLookup s.futures r = some FutureState.pending) :
    (settlesFor s.stream_callbacks r m = true →
      futLookup (dispatch s m).futures r = some (settleValue m)) ∧
    (settlesFor s.stream_callbacks r m = false →
      futLookup (dispatch s m).futures r = some FutureState.pending) := by
  constructor
  · intro hs
    simp only [settlesFor, decide_eq_true_eq] at hs
    obtain ⟨hm, _, hck⟩ := hs
    unfold dispatch
    rw [hm]
    dsimp only
    rw [if_neg hck, if_pos ⟨hr0, hreg⟩, hf]
    dsimp only
    unfold settleValue
    split_ifs with herr
    · exact futLookup_setFuture_self r _ s.futures _ hf
    · exact futLookup_setFuture_self r _ s.futures _ hf
  · intro hs
    unfold dispatch
    cases hm : msgRid m with
    | none => simpa using hf
    | some r2 =>
        dsimp only
        by_cases hrr : r2 = r
        · subst hrr
          have hck : (((jget m "type").getD (.str "response")) = JValue.str "stream_chunk")
              ∧ s.stream_callbacks.contains r2 = true := by
            by_contra hcon
            have hst : settlesFor s.stream_callbacks r2 m = true := by
              simp only [settlesFor, decide_eq_true_eq]
              exact ⟨hm, hr0, hcon⟩
            rw [hst] at hs
            cases hs
          rw [if_pos hck]
          simpa using hf
        · by_cases h1 : (((jget m "type").getD (.str "response")) = JValue.str "stream_chunk")
              ∧ s.stream_callbacks.contains r2 = true
          · rw [if_pos h1]
            simpa using hf
          · rw [if_neg h1]
            by_cases h2 : r2 ≠ "" ∧ (s.pending.map PendingRequest.request_id).contains r2 = true
            · rw [if_pos h2]
              cases hfut : futLookup s.futures r2 with
              | none => simpa using hf
              | some v =>
                  cases v with
                  | pending =>
                      dsimp only
                      split_ifs with herr
                      · rw [futLookup_setFuture_ne r2 _ r (fun he => hrr he.symm)]
                        exact hf
                      · rw [futLookup_setFuture_ne r2 _ r (fun he => hrr he.symm)]
                        exact hf
                  | ok res => simpa using hf
                  | failed e => simpa using hf
                  | cancelled => simpa using hf
            · rw [if_neg h2]
              simpa using hf

theorem dispatch_step_done (s : GwState) (m : List (String × JValue)) (r : String)
    (hf : futLookup s.futures r ≠ some FutureState.pending) :
    futLookup (dispatch s m).futures r = futLookup s.futures r := by
  unfold dispatch
  cases hm : msgRid m with
  | none => rfl
  | some r2 =>
      dsimp only
      by_cases h1 : (((jget m "type").getD (.str "response")) = JValue.str "stream_chunk")
          ∧ s.stream_callbacks.contains r2 = true
      · rw [if_pos h1]
      · rw [if_neg h1]
        by_cases h2 : r2 ≠ "" ∧ (s.pending.map PendingRequest.request_id).contains r2 = true
        · rw [if_pos h2]
          by_cases hrr : r2 = r
          · subst hrr
            cases hfut : futLookup s.futures r2 with
            | none => simpa using hfut
            | some v =>
                cases v with
                | pending => exact absurd hfut hf
                | ok res => simpa using hfut
                | failed e => simpa using hfut
                | cancelled => simpa using hfut
          · cases hfut : futLookup s.futures r2 with
            | none => simp
            | some v =>
                cases v with
                | pending =>
                    dsimp only
                    split_ifs with herr
                    · exact futLookup_setFuture_ne r2 _ r (fun he => hrr he.symm) s.futures
                    · exact futLookup_setFuture_ne r2 _ r (fun he => hrr he.symm) s.futures
                | ok res => simp
                | failed e => simp
                | cancelled => simp
        · rw [if_neg h2]

theorem settleValue_ne_pending (m : List (String × JValue)) :
    settleValue m ≠ FutureState.pending := by
  unfold settleValue
  split_ifs <;> simp

theorem dispatch_step_chunkLog (s : GwState) (m : List (String × JValue)) (r : String) :
    (dispatch s m).chunkLog.filter (fun kv => kv.1 == r)
      = s.chunkLog.filter (fun kv => kv.1 == r)
        ++ (if isChunkFor s.stream_callbacks r m then
            [(r, (jget m "content").getD (.str ""))] else []) := by
  unfold dispatch
  cases hm : msgRid m with
  | none =>
      have hick : isChunkFor s.stream_callbacks r m = false := by
        simp [isChunkFor, hm]
      rw [hick]
      simp
  | some r2 =>
      dsimp only
      by_cases h1 : (((jget m "type").getD (.str "response")) = JValue.str "stream_chunk")
          ∧ s.stream_callbacks.contains r2 = true
      · rw [if_pos h1]
        by_cases hrr : r2 = r
        · subst hrr
          have hick : isChunkFor s.stream_callbacks r2 m = true := by
            simp only [isChunkFor, decide_eq_true_eq]
            exact ⟨hm, h1.1, h1.2⟩
          rw [hick]
          dsimp only
          rw [List.filter_append]
          simp
        · have hick : isChunkFor s.stream_callbacks r m = false := by
            simp [isChunkFor, hm, hrr]
          rw [hick]
          dsimp only
          rw [List.filter_append]
          simp [hrr]
      · have hick : isChunkFor s.stream_callbacks r m = false := by
          by_cases hrr : r2 = r
          · subst hrr
            simp only [isChunkFor, hm]
            simp only [decide_eq_false_iff_not]
            intro hcon
            exact h1 ⟨hcon.2.1, hcon.2.2⟩
          · simp [isChunkFor, hm, hrr]
        rw [hick]
        rw [if_neg h1]
        by_cases h2 : r2 ≠ "" ∧ (s.pending.map PendingRequest.request_id).contains r2 = true
        · rw [if_pos h2]
          cases hfut : futLookup s.futures r2 with
          | none => simp
          | some v =>
              cases v with
              | pending =>
                  dsimp only
                  split_ifs <;> simp_all
              | ok res => simp
              | failed e => simp
              | cancelled => simp
        · rw [if_neg h2]
          simp

theorem dispatch_fold_done (r : String) :
    ∀ (ms : List (List (String × JValue))) (s : GwState),
      futLookup s.futures r ≠ some FutureState.pending →
      futLookup ((ms.foldl dispatch s)).futures r = futLookup s.futures r := by
  intro ms
  induction ms with
  | nil => intro s _; rfl
  | cons m rest ih =>
      intro s h
      have h1 := dispatch_step_done s m r h
      have h2 := ih (dispatch s m) (by rw [h1]; exact h)
      simp only [List.foldl]
      rw [h2, h1]

theorem dispatch_fold_future (r : String) (K : List String) (hr0 : r ≠ "") :
    ∀ (ms : List (List (String × JValue))) (s : GwState),
      s.stream_callbacks = K →
      (s.pending.map PendingRequest.request_id).contains r = true →
      futLookup s.futures r = some FutureState.pending →
      futLookup ((ms.foldl dispatch s)).futures r
        = some ((firstSettle K r ms).getD FutureState.pending) := by
  intro ms
  induction ms with
  | nil =>
      intro s hK hreg hf
      simpa [firstSettle] using hf
  | cons m rest ih =>
      intro s hK hreg hf
      simp only [List.foldl, firstSettle]
      cases hs : settlesFor K r m with
      | false =>
          have hstep := (dispatch_step_unsettled s m r hr0 hreg hf).2 (by rw [hK]; exact hs)
          have hrec := ih (dispatch s m) (by rw [dispatch_stream_callbacks]; exact hK)
            (by rw [dispatch_pending]; exact hreg) hstep
          rw [hrec]
          simp [hs]
      | true =>
          have hstep := (dispatch_step_unsettled s m r hr0 hreg hf).1 (by rw [hK]; exact hs)
          have hdone := dispatch_fold_done r rest (dispatch s m) (by
            rw [hstep]
            intro hcon
            exact settleValue_ne_pending m (by injection hcon))
          rw [hdone, hstep]
          simp [hs]

theorem dispatch_fold_chunks (r : String) (K : List String) :
    ∀ (ms : List (List (String × JValue))) (s : GwState),
      s.stream_callbacks = K →
      ((ms.foldl dispatch s)).chunkLog.filter (fun kv => kv.1 == r)
        = s.chunkLog.filter (fun kv => kv.1 == r)
          ++ (ms.filter (isChunkFor K r)).map
              (fun m => (r, (jget m "content").getD (.str ""))) := by
  intro ms
  induction ms with
  | nil => intro s _; simp
  | cons m rest ih =>
      intro s hK
      simp only [List.foldl]
      rw [ih (dispatch s m) (by rw [dispatch_stream_callbacks]; exact hK)]
      have hstep := dispatch_step_chunkLog s m r
      rw [hK] at hstep
      rw [hstep]
      cases hc : isChunkFor K r m <;>
        simp [hc, List.filter_cons, List.append_assoc]

/-- C2: for every correlation identity with a registered PendingRequest
(and an unsettled future), across any sequence of inbound messages the
dispatcher routes streaming chunks for that identity to its registered
sink (in order, without settling the request), resolves the result slot
exactly as the FIRST settling message dictates (a `stream_end` or a
terminal response, with failure when a truthy `error` field is
present), and a later message matching an already-settled identity
never re-settles it (the fold beyond any settled prefix leaves the slot
unchanged). -/
theorem dispatch_exactly_once_spec (s0 : GwState) (r : String)
    (ms : List (List (String × JValue)))
    (hr0 : r ≠ "")
    (hreg : (s0.pending.map PendingRequest.request_id).contains r = true)
    (hf : futLookup s0.futures r = some FutureState.pending) :
    futLookup ((ms.foldl dispatch s0)).futures r
      = some ((firstSettle s0.stream_callbacks r ms).getD FutureState.pending) ∧
    ((ms.foldl dispatch s0)).chunkLog.filter (fun kv => kv.1 == r)
      = s0.chunkLog.filter (fun kv => kv.1 == r)
        ++ (ms.filter (isChunkFor s0.stream_callbacks r)).map
            (fun m => (r, (jget m "content").getD (.str ""))) ∧
    (∀ ms1 ms2, ms = ms1 ++ ms2 →
      futLookup ((ms1.foldl dispatch s0)).futures r ≠ some FutureState.pending →
      futLookup ((ms.foldl dispatch s0)).futures r
        = futLookup ((ms1.foldl dispatch s0)).futures r) := by
  refine ⟨dispatch_fold_future r s0.stream_callbacks hr0 ms s0 rfl hreg hf,
    dispatch_fold_chunks r s0.stream_callbacks ms s0 rfl, ?_⟩
  intro ms1 ms2 hsplit hne
  subst hsplit
  rw [List.foldl_append]
  exact dispatch_fold_done r ms2 (ms1.foldl dispatch s0) hne

/-- Witness for C2's theorem: the chunk is delivered to the sink, the
`stream_end` (the first settling message) settles the future — with the
`stream_end` message itself — and the later terminal response does not
re-settle it. -/
theorem dispatch_exactly_once_spec_witness :
    futLookup ((gwWitnessMsgs.foldl dispatch gwWitnessState)).futures "1"
      = some (FutureState.ok
          [("request_id", JValue.str "1"), ("type", JValue.str "stream_end")]) ∧
    ((gwWitnessMsgs.foldl dispatch gwWitnessState)).chunkLog.filter
        (fun kv => kv.1 == "1")
      = [("1", JValue.str "Hel")] := by
  have h := dispatch_exactly_once_spec gwWitnessState "1" gwWitnessMsgs
    (by decide) (by decide) (by decide)
  exact ⟨h.1.trans (by rfl), (h.2.1).trans (by rfl)⟩

theorem futLookup_failAll (pend : List String) (msg : String) (r : String)
    (hmem : pend.contains r = true) :
    ∀ fs : List (String × FutureState),
      futLookup fs r = some FutureState.pending →
      futLookup (failPendingFutures pend msg fs) r
        = some (FutureState.failed (.connectionError msg)) := by
  intro fs
  induction fs with
  | nil => intro h; cases h
  | cons kv rest ih =>
      obtain ⟨k, x⟩ := kv
      intro h
      by_cases hk : k = r
      · subst hk
        have hx : x = FutureState.pending := by
          simpa [futLookup] using h
        subst hx
        simp only [failPendingFutures, List.map_cons]
        rw [if_pos hmem]
        simp [futLookup]
      · have htail : futLookup rest r = some FutureState.pending := by
          simpa [futLookup, hk] using h
        have hrec := ih htail
        cases x with
        | pending =>
            simp only [failPendingFutures, List.map_cons]
            split_ifs with hc <;>
              (simp only [futLookup, if_neg hk]; exact hrec)
        | ok res =>
            simp only [failPendingFutures, List.map_cons, futLookup, if_neg hk]
            exact hrec
        | failed e =>
            simp only [failPendingFutures, List.map_cons, futLookup, if_neg hk]
            exact hrec
        | cancelled =>
            simp only [failPendingFutures, List.map_cons, futLookup, if_neg hk]
            exact hrec

theorem contains_filtered_pending (rid : String) (l : List PendingRequest) :
    (((l.filter (fun p => decide (p.request_id ≠ rid))).map
      PendingRequest.request_id).contains rid) = false := by
  rw [Bool.eq_false_iff]
  intro hcon
  have hmem : rid ∈ (l.filter (fun p => decide (p.request_id ≠ rid))).map
      PendingRequest.request_id := by simpa using hcon
  simp only [List.mem_map, List.mem_filter] at hmem
  obtain ⟨p, ⟨_, hp⟩, he⟩ := hmem
  exact (by simpa using hp : p.request_id ≠ rid) he

theorem contains_filtered_str (rid : String) (l : List String) :
    ((l.filter (fun c => decide (c ≠ rid))).contains rid) = false := by
  rw [Bool.eq_false_iff]
  intro hcon
  simp at hcon

theorem futLookup_setFuture_append (r : String) (v w : FutureState) :
    ∀ fs : List (String × FutureState), futLookup fs r = none →
      futLookup (setFuture (fs ++ [(r, v)]) r w) r = some w := by
  intro fs
  induction fs with
  | nil => simp [setFuture, futLookup]
  | cons kv rest ih =>
      obtain ⟨k, x⟩ := kv
      intro h
      have hk : ¬ (k = r) := by
        intro he
        simp [futLookup, he] at h
      have htail : futLookup rest r = none := by
        simpa [futLookup, hk] using h
      simp only [List.cons_append, setFuture, if_neg hk, futLookup]
      exact ih htail

/-- C6 (amended: after an explicit disconnect every request pending at
that moment fails with `ConnectionError("Gateway disconnected")` — no
caller is left waiting — the pending table is emptied and the status
becomes DISCONNECTED; but a `send` issued afterward is not refused
until the caller calls `connect`: `send` itself invokes `connect()`
when not connected, so a post-disconnect send succeeds only after a
successful connect — performed automatically — and fails with
`ConnectionError` whenever that connect fails; see the counterexample
for the original "until connect is called again by the caller"
wording). -/
theorem disconnect_spec :
    (∀ s : GwState,
      (gwDisconnect s).pending = [] ∧
      (gwDisconnect s).status = GatewayStatus.disconnected ∧
      (∀ r : String, (s.pending.map PendingRequest.request_id).contains r = true →
        futLookup s.futures r = some FutureState.pending →
        futLookup (gwDisconnect s).futures r
          = some (FutureState.failed (.connectionError "Gateway disconnected")))) ∧
    (∀ (s : GwState) (hasSink : Bool) (tmo : Option ℚ) (cfg : GatewayConfig) (now : ℚ)
      (world : SendWorld),
      (gwSend (gwDisconnect s) hasSink tmo cfg now false world).1
        = SendResult.connectionError "Cannot reach OpenClaw gateway") := by
  constructor
  · intro s
    refine ⟨rfl, rfl, ?_⟩
    intro r hmem hf
    exact futLookup_failAll _ "Gateway disconnected" r hmem s.futures hf
  · intro s hasSink tmo cfg now world
    rfl

/-- C6 counterexample: with the brain endpoint reachable again, a
`send` issued right after an explicit disconnect succeeds although the
caller never called `connect` — `send` re-establishes the connection
itself — refuting "no call to send issued afterward succeeds until
connect is called again by the caller". -/
theorem disconnect_send_counterexample :
    (gwSend (gwDisconnect gwWitnessState) false none {} 0 true
      (.settledOk [("content", JValue.str "ok")])).1
      = SendResult.ok [("content", JValue.str "ok")] := by
  rfl

/-- Witness for C6's theorem at a concrete state with one pending
request. -/
theorem disconnect_spec_witness :
    (gwDisconnect gwWitnessState).pending = [] ∧
    (gwDisconnect gwWitnessState).status = GatewayStatus.disconnected ∧
    futLookup (gwDisconnect gwWitnessState).futures "1"
      = some (FutureState.failed (.connectionError "Gateway disconnected")) ∧
    (gwSend (gwDisconnect gwWitnessState) false none {} 0 false .timeout).1
      = SendResult.connectionError "Cannot reach OpenClaw gateway" :=
  ⟨(disconnect_spec.1 gwWitnessState).1, (disconnect_spec.1 gwWitnessState).2.1,
    (disconnect_spec.1 gwWitnessState).2.2 "1" (by decide) (by decide),
    disconnect_spec.2 gwWitnessState false none {} 0 .timeout⟩

/-- C7: a `send` whose correlation identity is never settled by any
inbound message fails with `ResponseTimeout` once its timeout budget
elapses (the `world = timeout` case abstracts the elapse of the
budget), and afterwards the correlation identity is no longer in the
pending table, its stream-callback registration is removed, and its
future is cancelled.  The freshness hypothesis is what `uuid4`
provides. -/
theorem send_timeout_spec (s : GwState) (hasSink : Bool) (tmo : Option ℚ)
    (cfg : GatewayConfig) (now : ℚ) (connectOk : Bool)
    (hconn : s.status = GatewayStatus.connected)
    (hfresh : futLookup s.futures (toString s.next_uuid) = none) :
    (gwSend s hasSink tmo cfg now connectOk .timeout).1 = SendResult.timeoutError ∧
    (((gwSend s hasSink tmo cfg now connectOk .timeout).2.pending.map
        PendingRequest.request_id).contains (toString s.next_uuid)) = false ∧
    ((gwSend s hasSink tmo cfg now connectOk .timeout).2.stream_callbacks.contains
      (toString s.next_uuid)) = false ∧
    futLookup (gwSend s hasSink tmo cfg now connectOk .timeout).2.futures
      (toString s.next_uuid) = some FutureState.cancelled := by
  have hsend : gwSend s hasSink tmo cfg now connectOk .timeout
      = (SendResult.timeoutError,
         { s with
           next_uuid := s.next_uuid + 1
           pending := (s.pending ++
             [({ request_id := toString s.next_uuid, sent_at := now,
                 timeout := tmo.getD cfg.response_timeout } : PendingRequest)]).filter
               (fun p => decide (p.request_id ≠ toString s.next_uuid))
           futures := setFuture (s.futures ++ [(toString s.next_uuid, .pending)])
             (toString s.next_uuid) .cancelled
           stream_callbacks := ((if hasSink then s.stream_callbacks ++ [toString s.next_uuid]
             else s.stream_callbacks).filter
               (fun c => decide (c ≠ toString s.next_uuid))) }) := by
    simp [gwSend, hconn]
  rw [hsend]
  refine ⟨rfl, ?_, ?_, ?_⟩
  · exact contains_filtered_pending _ _
  · exact contains_filtered_str _ _
  · exact futLookup_setFuture_append _ _ _ s.futures hfresh

/-- Witness for C7's theorem at a concrete connected state. -/
theorem send_timeout_spec_witness :
    (gwSend gwWitnessState true none {} 0 true .timeout).1 = SendResult.timeoutError ∧
    (((gwSend gwWitnessState true none {} 0 true .timeout).2.pending.map
        PendingRequest.request_id).contains (toString gwWitnessState.next_uuid)) = false ∧
    ((gwSend gwWitnessState true none {} 0 true .timeout).2.stream_callbacks.contains
      (toString gwWitnessState.next_uuid)) = false ∧
    futLookup (gwSend gwWitnessState true none {} 0 true .timeout).2.futures
      (toString gwWitnessState.next_uuid) = some FutureState.cancelled :=
  send_timeout_spec gwWitnessState true none {} 0 true (by decide) (by decide)

theorem backoffDelays_eq_map (cfg : GatewayConfig) :
    ∀ (k a : Nat), backoffDelays cfg a k
      = (List.range k).map (fun i =>
          min (cfg.reconnect_delay_base * 2 ^ (a + i)) cfg.reconnect_delay_max) := by
  intro k
  induction k with
  | zero => intro a; simp [backoffDelays]
  | succ k ih =>
      intro a
      rw [backoffDelays, ih (a + 1), List.range_succ_eq_map]
      simp only [List.map_cons, List.map_map]
      congr 1
      apply List.map_congr_left
      intro i _
      simp only [Function.comp_apply]
      have he : a + 1 + i = a + (i + 1) := by omega
      rw [he]

theorem reconnectGo_replicate_false (cfg : GatewayConfig) (m : Nat)
    (hm : cfg.reconnect_max_attempts = m) (hm0 : 0 < m) :
    ∀ (k : Nat) (s : GwState) (acc : List ℚ),
      s.reconnect_attempt + k = m →
      reconnectGo cfg s (List.replicate k false) acc
        = ({ s with
             status := GatewayStatus.fatal
             reconnect_attempt := m + 1
             futures := failPendingFutures (s.pending.map PendingRequest.request_id)
               "Gateway reconnection failed" s.futures
             pending := [] },
           acc ++ backoffDelays cfg s.reconnect_attempt k) := by
  intro k
  induction k with
  | zero =>
      intro s acc ha
      unfold reconnectGo
      rw [if_pos (by
        rw [hm]
        exact ⟨hm0, by omega⟩)]
      simp only [backoffDelays, List.append_nil]
      rw [show s.reconnect_attempt + 1 = m + 1 by omega]
  | succ k ih =>
      intro s acc ha
      rw [List.replicate_succ]
      unfold reconnectGo
      rw [if_neg (by
        rw [hm]
        intro hcon
        omega)]
      dsimp only
      simp only [Bool.false_eq_true, if_false]
      have hrec := ih
        { s with
          status := GatewayStatus.disconnected
          reconnect_attempt := s.reconnect_attempt + 1 }
        (acc ++ [min (cfg.reconnect_delay_base * 2 ^ (s.reconnect_attempt + 1 - 1))
          cfg.reconnect_delay_max])
        (by dsimp only; omega)
      rw [hrec]
      simp only [Prod.mk.injEq]
      refine ⟨by trivial, ?_⟩
      rw [backoffDelays]
      simp only [List.append_assoc, List.singleton_append, Nat.add_sub_cancel]

/-- C8: during reconnection after an unexpected closure (entering the
loop with the attempt counter at 0, as `connect` resets it), the delay
slept before attempt `n` equals
`min(baseDelay * 2^(n-1), maxDelay)` for every `n ≥ 1`; and when the
configured attempt ceiling `m > 0` is exceeded (every attempt's connect
fails), the manager enters the terminal FATAL state, fails every
still-pending request with a connection error, and empties the pending
table. -/
theorem reconnect_backoff_spec (cfg : GatewayConfig) (s : GwState) (m : Nat)
    (hm : cfg.reconnect_max_attempts = m) (hm0 : 0 < m)
    (ha : s.reconnect_attempt = 0) :
    (gwReconnect cfg s (List.replicate m false)).2
      = (List.range m).map (fun i =>
          min (cfg.reconnect_delay_base * 2 ^ i) cfg.reconnect_delay_max) ∧
    (gwReconnect cfg s (List.replicate m false)).1.status = GatewayStatus.fatal ∧
    (gwReconnect cfg s (List.replicate m false)).1.pending = [] ∧
    (∀ r : String, (s.pending.map PendingRequest.request_id).contains r = true →
      futLookup s.futures r = some FutureState.pending →
      futLookup (gwReconnect cfg s (List.replicate m false)).1.futures r
        = some (FutureState.failed (.connectionError "Gateway reconnection failed"))) := by
  have h := reconnectGo_replicate_false cfg m hm hm0 m
    { s with status := GatewayStatus.reconnecting } []
    (by dsimp only; omega)
  unfold gwReconnect
  rw [h]
  refine ⟨?_, rfl, rfl, ?_⟩
  · dsimp only
    rw [ha, backoffDelays_eq_map]
    simp
  · intro r hmem hf
    exact futLookup_failAll _ "Gateway reconnection failed" r hmem s.futures hf

/-- Witness for C8's theorem: base delay 1, max delay 30, ceiling 2,
both attempts fail: delays `[1, 2]`, FATAL, pending emptied, the
pending request's future failed. -/
theorem reconnect_backoff_spec_witness :
    (gwReconnect { reconnect_max_attempts := 2 } gwWitnessState
        (List.replicate 2 false)).2 = [1, 2] ∧
    (gwReconnect { reconnect_max_attempts := 2 } gwWitnessState
        (List.replicate 2 false)).1.status = GatewayStatus.fatal ∧
    (gwReconnect { reconnect_max_attempts := 2 } gwWitnessState
        (List.replicate 2 false)).1.pending = [] ∧
    futLookup (gwReconnect { reconnect_max_attempts := 2 } gwWitnessState
        (List.replicate 2 false)).1.futures "1"
      = some (FutureState.failed (.connectionError "Gateway reconnection failed")) := by
  have h := reconnect_backoff_spec { reconnect_max_attempts := 2 } gwWitnessState 2
    rfl (by decide) rfl
  refine ⟨h.1.trans ?_, h.2.1, h.2.2.1, h.2.2.2 "1" (by decide) (by decide)⟩
  norm_num [List.range_succ]

theorem transition_history_getLast (st : StateTracker) (ns : ConversationState)
    (trig : Option Nat) (md : List (String × JValue)) (now : Nat) :
    (st.transition ns trig md now).history.getLast?
      = some (st.transition ns trig md now).current := by
  unfold StateTracker.transition
  simp only
  split_ifs with h
  · rw [List.drop_append_of_le_length (by
      simp only [List.length_append, List.length_cons, List.length_nil] at h ⊢
      omega)]
    rw [List.getLast?_concat]
  · rw [List.getLast?_concat]

theorem maybeCompress_turns (cfg : EngineConfig) (c : ConversationContext)
    (s : Option String) : (maybeCompress cfg c s).turns = c.turns := by
  unfold maybeCompress
  split_ifs with h1 h2
  · rfl
  · rfl
  · cases s with
    | none => rfl
    | some v =>
        dsimp only
        split_ifs <;> rfl

/-- C1 (code bug): when the send to the brain fails with a timeout or a
connection error, the matching `except` handler builds the apology
response (text the corresponding short apology, intent `"error"`,
confidence 0, state error_recovery), appends the synthetic brain Turn
carrying the apology text (after the user turn, so the history grows by
exactly two), transitions the State Ledger to a fresh error_recovery
snapshot, and invokes the configured error callback (the only callback
invoked) — but that invocation is unguarded in the source (unlike
`on_response`/`on_action`, which are `try/except`-wrapped), so
`process` raises to the caller exactly when the configured error
callback raises, refuting "process() does not raise to the caller";
only when the callback returns normally does the caller receive the
claimed well-formed response. -/
theorem process_send_failure_code_bug (eng : Engine) (user_input : String)
    (metadata : List (String × JValue)) (now : Nat) (latency_ms : ℚ)
    (compressSummary : Option String) (loads : String → Option JValue)
    (e : SendFailure) (res : Except Unit BrainResponse) (eng2 : Engine)
    (evs : List EngineEvent)
    (he : e = SendFailure.timeoutError ∨ ∃ m, e = SendFailure.connectionError m)
    (hcb : eng.config.has_on_error = true)
    (hr : eng.process user_input metadata now latency_ms compressSummary
        (.error e) loads = (res, eng2, evs)) :
    (eng.config.on_error_raises = true → res = Except.error ()) ∧
    (eng.config.on_error_raises = false → ∃ resp : BrainResponse,
      res = Except.ok resp ∧
      resp.text = apologyFor e ∧
      (resp.text = timeoutApology ∨ resp.text = connectionApology) ∧
      resp.intent = some "error" ∧
      resp.state = some ConversationState.error_recovery ∧
      resp.confidence = 0) ∧
    eng2.context.turns.length = eng.context.turns.length + 2 ∧
    (∃ t : Turn, eng2.context.turns.getLast? = some t ∧ t.role = Role.brain ∧
      t.content = apologyFor e ∧ t.intent = some "error") ∧
    eng2.state.current.state = ConversationState.error_recovery ∧
    eng2.state.current.entered_at = now ∧
    eng2.state.current.exited_at = none ∧
    eng2.state.history.getLast? = some eng2.state.current ∧
    evs = [EngineEvent.on_error e] := by
  have h0 : eng.errorReturn
      (if eng.config.auto_compress_at
          < ((eng.context.add_user_turn user_input metadata now).2).turn_count then
        maybeCompress eng.config ((eng.context.add_user_turn user_input metadata now).2)
          compressSummary
      else (eng.context.add_user_turn user_input metadata now).2) e now
      = (res, eng2, evs) := hr
  set c2 := (if eng.config.auto_compress_at
      < ((eng.context.add_user_turn user_input metadata now).2).turn_count then
    maybeCompress eng.config ((eng.context.add_user_turn user_input metadata now).2)
      compressSummary
  else (eng.context.add_user_turn user_input metadata now).2) with hc2
  have hc2t : c2.turns = eng.context.turns
      ++ [(eng.context.add_user_turn user_input metadata now).1] := by
    rw [hc2]
    split_ifs with h
    · rw [maybeCompress_turns]
      rfl
    · rfl
  have herr : eng.errorReturn c2 e now
      = ((if eng.config.on_error_raises then Except.error ()
          else Except.ok (BrainResponse.error (apologyFor e))),
         { eng with
           context := (c2.add_brain_turn (BrainResponse.error (apologyFor e)).text
             (some "error") [] [] now).2
           state := eng.state.transition ConversationState.error_recovery none [] now },
         [EngineEvent.on_error e]) := by
    simp only [Engine.errorReturn]
    rw [if_pos hcb]
  rw [herr] at h0
  have hres : res = (if eng.config.on_error_raises then Except.error ()
      else Except.ok (BrainResponse.error (apologyFor e))) :=
    (congrArg Prod.fst h0).symm
  have heng2 : eng2 =
      { eng with
        context := (c2.add_brain_turn (BrainResponse.error (apologyFor e)).text
          (some "error") [] [] now).2
        state := eng.state.transition ConversationState.error_recovery none [] now } :=
    (congrArg (fun p => p.2.1) h0).symm
  have hevs : evs = [EngineEvent.on_error e] :=
    (congrArg (fun p => p.2.2) h0).symm
  refine ⟨?_, ?_, ?_, ?_, ?_, ?_, ?_, ?_, ?_⟩
  · intro hra
    rw [hres, if_pos hra]
  · intro hra
    refine ⟨BrainResponse.error (apologyFor e), ?_, rfl, ?_, rfl, rfl, rfl⟩
    · rw [hres, if_neg (by simp [hra])]
    · rcases he with h | ⟨m, h⟩
      · subst h
        left
        rfl
      · subst h
        right
        rfl
  · rw [heng2]
    simp only [ConversationContext.add_brain_turn]
    rw [hc2t]
    simp
  · rw [heng2]
    refine ⟨{ id := c2.next_id, role := Role.brain
              content := (BrainResponse.error (apologyFor e)).text, timestamp := now
              entities_mentioned := [], intent := some "error", metadata := [] },
      ?_, rfl, rfl, rfl⟩
    simp only [ConversationContext.add_brain_turn]
    exact List.getLast?_concat _
  · rw [heng2]
    rfl
  · rw [heng2]
    rfl
  · rw [heng2]
    rfl
  · rw [heng2]
    exact transition_history_getLast eng.state ConversationState.error_recovery none [] now
  · exact hevs

/-- Witness for C1's theorem: the same timed-out send against two fresh
engines — one whose configured error callback raises when invoked, so
`process` raises to its caller (though the apology turn and the
error-recovery transition have already happened), and one whose
callback returns normally, so the caller receives the apology
response. -/
theorem process_send_failure_code_bug_witness :
    (engRaise.process "hello" [] 1 5 none (.error .timeoutError) (fun _ => none)).1
      = Except.error () ∧
    (engRaise.process "hello" [] 1 5 none (.error .timeoutError)
        (fun _ => none)).2.1.context.turns.length
      = engRaise.context.turns.length + 2 ∧
    (engRaise.process "hello" [] 1 5 none (.error .timeoutError)
        (fun _ => none)).2.1.state.current.state
      = ConversationState.error_recovery ∧
    (engRaise.process "hello" [] 1 5 none (.error .timeoutError) (fun _ => none)).2.2
      = [EngineEvent.on_error SendFailure.timeoutError] ∧
    (∃ resp : BrainResponse,
      (engNoRaise.process "hello" [] 1 5 none (.error .timeoutError) (fun _ => none)).1
        = Except.ok resp ∧ resp.text = timeoutApology) := by
  have h := process_send_failure_code_bug engRaise "hello" [] 1 5 none (fun _ => none)
    SendFailure.timeoutError _ _ _ (Or.inl rfl) rfl rfl
  have h2 := process_send_failure_code_bug engNoRaise "hello" [] 1 5 none (fun _ => none)
    SendFailure.timeoutError _ _ _ (Or.inl rfl) rfl rfl
  refine ⟨h.1 rfl, h.2.2.1, h.2.2.2.2.1, h.2.2.2.2.2.2.2.2, ?_⟩
  obtain ⟨resp, hok, htext, _⟩ := h2.2.1 rfl
  exact ⟨resp, hok, htext⟩

/-- C9: for every gateway response whose `content` field is a string
that the JSON decoder cannot parse, response parsing never raises: it
returns (`.ok`) a response whose text is the entire raw string and in
which every structured field is absent or at its default — no intent,
no state, no entities, no actions, no follow-up, no summary update,
clarification flag false (and confidence at its default 1). -/
theorem from_gateway_response_plain_text_spec (loads : String → Option JValue)
    (data : List (String × JValue)) (latency_ms : ℚ) (s : String)
    (hc : jget data "content" = some (JValue.str s))
    (hd : loads s = none) :
    BrainResponse.from_gateway_response loads data latency_ms
      = .ok { text := s, intent := none, state := none, entities := [],
              suggested_actions := [], follow_up := none, confidence := 1,
              needs_clarification := false, context_summary_update := none,
              raw := data, latency_ms := latency_ms } := by
  unfold BrainResponse.from_gateway_response
  rw [hc]
  simp only [Option.getD_some]
  rw [hd]

/-- Witness for C9's theorem: content `"** not json **"` with a decoder
that rejects it. -/
theorem from_gateway_response_plain_text_spec_witness :
    BrainResponse.from_gateway_response (fun _ => none)
      [("request_id", JValue.str "r1"), ("content", JValue.str "** not json **")] 7
      = .ok { text := "** not json **", intent := none, state := none, entities := [],
              suggested_actions := [], follow_up := none, confidence := 1,
              needs_clarification := false, context_summary_update := none,
              raw := [("request_id", JValue.str "r1"),
                ("content", JValue.str "** not json **")], latency_ms := 7 } :=
  from_gateway_response_plain_text_spec (fun _ => none) _ 7 "** not json **" rfl rfl

/-- C10: after `new_session`, regardless of prior history, the
replacement context has zero turns, an empty entity registry (entity
knowledge does not persist, despite the docstring), an empty topic
stack and empty summary, the configured window and capacity are kept,
the freshly drawn session id is returned (distinct from the old one
whenever the uuid draw differs, which is what `uuid4` provides), and
the replacement state tracker is in `idle` with an unset exit timestamp
and a single-snapshot history. -/
theorem new_session_spec (eng : Engine) (freshSid : String) (now : Nat) :
    (eng.new_session freshSid now).1
      = (eng.new_session freshSid now).2.context.session_id ∧
    (eng.new_session freshSid now).2.context.session_id = freshSid ∧
    (freshSid ≠ eng.context.session_id →
      (eng.new_session freshSid now).1 ≠ eng.context.session_id) ∧
    (eng.new_session freshSid now).2.context.turns = [] ∧
    (eng.new_session freshSid now).2.context.entities = [] ∧
    (eng.new_session freshSid now).2.context.topic_stack = [] ∧
    (eng.new_session freshSid now).2.context.session_summary = "" ∧
    (eng.new_session freshSid now).2.context.window_size
      = eng.config.context_window_size ∧
    (eng.new_session freshSid now).2.context.max_entities = eng.config.max_entities ∧
    (eng.new_session freshSid now).2.state.current.state = ConversationState.idle ∧
    (eng.new_session freshSid now).2.state.current.exited_at = none ∧
    (eng.new_session freshSid now).2.state.history
      = [(eng.new_session freshSid now).2.state.current] :=
  ⟨rfl, rfl, fun h => h, rfl, rfl, rfl, rfl, rfl, rfl, rfl, rfl, rfl⟩

/-- Witness for C10's theorem at a concrete engine with prior history. -/
theorem new_session_spec_witness :
    (let eng0 : Engine :=
      { config := {}
        context := ((ConversationContext.init "old" 20 200 0).track_entity "Marcus"
          "person" [] [] 1).push_topic "sales"
        state := (StateTracker.init 0).transition ConversationState.querying none [] 2 }
    (eng0.new_session "fresh" 3).1 = (eng0.new_session "fresh" 3).2.context.session_id ∧
    (eng0.new_session "fresh" 3).2.context.session_id = "fresh" ∧
    ("fresh" ≠ eng0.context.session_id →
      (eng0.new_session "fresh" 3).1 ≠ eng0.context.session_id) ∧
    (eng0.new_session "fresh" 3).2.context.turns = [] ∧
    (eng0.new_session "fresh" 3).2.context.entities = [] ∧
    (eng0.new_session "fresh" 3).2.context.topic_stack = [] ∧
    (eng0.new_session "fresh" 3).2.context.session_summary = "" ∧
    (eng0.new_session "fresh" 3).2.context.window_size
      = eng0.config.context_window_size ∧
    (eng0.new_session "fresh" 3).2.context.max_entities = eng0.config.max_entities ∧
    (eng0.new_session "fresh" 3).2.state.current.state = ConversationState.idle ∧
    (eng0.new_session "fresh" 3).2.state.current.exited_at = none ∧
    (eng0.new_session "fresh" 3).2.state.history
      = [(eng0.new_session "fresh" 3).2.state.current]) :=
  new_session_spec _ "fresh" 3

/-- C4 counterexample: two `track_entity` calls with the identical
canonical name `" x"` (same casing both times) and capacity far from
exceeded leave TWO entities in the registry, each with reference count 1
— not one entity with reference count 2 as the claim states.  The lookup
strips whitespace from the needle but not from the stored canonical
name, so the second call never finds the first entity. -/
theorem track_entity_same_name_counterexample :
    ((((ConversationContext.init "s" 20 200 0).track_entity " x" "person" [] [] 0).track_entity
        " x" "person" [] [] 1).entities.map Entity.reference_count) = [1, 1] := by
  rfl

end Razor

-- sanity examples (concrete evaluations of the embedding)
example :
    ((Razor.ConversationContext.init "s").track_entity "Marcus" "person" ["Marc"] [] 3
      |>.entities.map Razor.Entity.reference_count) = [1] := by rfl

example :
    (((Razor.ConversationContext.init "s").track_entity "Marcus" "person" [] [] 3)
      |>.track_entity "marcus" "person" ["Marc"] [] 4
      |>.entities.map (fun e => (e.reference_count, e.aliases))) = [(2, ["Marc"])] := by rfl

example :
    ((((Razor.ConversationContext.init "s").track_entity " x" "person" [] [] 0)
      |>.track_entity " x" "person" [] [] 1)
      |>.entities.map Razor.Entity.reference_count) = [1, 1] := by rfl
